import Mathlib

/-!
Verification development for the ledger consistency engine of a payment
tracker (source: `src/bot.py`).  The worksheet-manipulating core
(`apply_tx_row`, `_find_duplicate_tx`, `apply_inv_update`,
`_recalc_balance_chain`, `_flag_duplicate`, `write_to_excel`, and their
helpers) is shallowly embedded below.

Modelling conventions:
 * Excel cell values and loosely-typed JSON payload values are both
   modelled by `Cell`: `empty` stands for Python `None` / an absent key,
   `str` for strings, `num` for numbers.  Payload fields that are absent
   and fields that are explicitly `null` are conflated into `Cell.empty`
   (the schema produced upstream never sends `null` for a field that the
   code reads with a non-`None` default).
 * Python floats are modelled by exact rationals; `round(x, n)` becomes
   rounding of `10^n * x` to the nearest integer (ties up) divided by
   `10^n`, standing in for Python's float rounding.
 * Styling calls (`sc`, fonts, fills, row heights) carry no data and are
   omitted.
 * `datetime.now()` is modelled by an explicit `today : String`
   parameter threaded into the functions that use it.
-/

set_option maxRecDepth 1000000

set_option maxHeartbeats 40000000

namespace PaymentBot

/-- An Excel cell value / loosely typed Python value: `None`, a string,
or a number. -/
inductive Cell where
  | empty : Cell
  | str (s : String) : Cell
  | num (q : ℚ) : Cell
deriving DecidableEq, Repr

/-- Python truthiness: `None` and `0` and `""` are falsy. -/
def pyTruthy : Cell → Bool
  | .empty => false
  | .str s => s ≠ ""
  | .num q => q ≠ 0

/-- Python `x or y`. -/
def pyOr (x y : Cell) : Cell := if pyTruthy x then x else y

/-- Python `d.get(k, default)` under the absent/null conflation. -/
def pyGetD (x dflt : Cell) : Cell := match x with
  | .empty => dflt
  | c => c

/-- Decimal rendering of a rational, standing in for Python `str(float)`:
integral values render as `"5.0"`, otherwise up to 10 (exact if possible)
fractional digits. -/
def ratRepr (q : ℚ) : String :=
  let sgn := if q < 0 then "-" else ""
  let a : ℚ := |q|
  let ip : ℕ := a.floor.toNat
  let fracNum : ℕ := ((a - ip) * 10 ^ 10).floor.toNat
  if fracNum = 0 then sgn ++ toString ip ++ ".0"
  else
    -- strip trailing zeros of the 10-digit fraction block
    let digits := (Nat.toDigits 10 fracNum)
    let padded := List.replicate (10 - digits.length) '0' ++ digits
    let trimmed := (padded.reverse.dropWhile (· = '0')).reverse
    sgn ++ toString ip ++ "." ++ String.mk trimmed

/-- Python `str(x)` on a cell value. -/
def pyStrRaw : Cell → String
  | .empty => "None"
  | .str s => s
  | .num q => ratRepr q

/-- Python `str(x or "")`, the coercion used when reading text cells. -/
def pyStrO (c : Cell) : String := if pyTruthy c then pyStrRaw c else ""

/-- Python `==` between cell values (`None == None` is `True`; values of
different types compare unequal). -/
def pyEq : Cell → Cell → Bool
  | .empty, .empty => true
  | .str a, .str b => a = b
  | .num a, .num b => a = b
  | _, _ => false

/-- A Python exception escaping an embedded function. -/
inductive PyErr where
  | valueError (msg : String) : PyErr
  | typeError (msg : String) : PyErr
deriving DecidableEq, Repr

instance exceptDecEq {ε α : Type} [DecidableEq ε] [DecidableEq α] :
    DecidableEq (Except ε α) := fun a b =>
  match a, b with
  | .ok x, .ok y => decidable_of_iff (x = y) (by simp)
  | .error x, .error y => decidable_of_iff (x = y) (by simp)
  | .ok _, .error _ => isFalse (fun h => Except.noConfusion h)
  | .error _, .ok _ => isFalse (fun h => Except.noConfusion h)

/-- `round(q, 2)` over rationals (ties rounded up, standing in for float
rounding). -/
def round2 (q : ℚ) : ℚ := (round (q * 100) : ℤ) / 100

/-- `round(q, 5)` over rationals. -/
def round5 (q : ℚ) : ℚ := (round (q * 100000) : ℤ) / 100000

/-! ### String helpers mirroring the Python string operations used -/

/-- `startsWithChars a b` : `a` is an initial segment of `b`. -/
def startsWithChars : List Char → List Char → Bool
  | [], _ => true
  | _ :: _, [] => false
  | a :: as, b :: bs => a = b && startsWithChars as bs

/-- `containsChars a b` : `a` occurs contiguously inside `b`
(Python `a in b` on strings). -/
def containsChars (needle : List Char) : List Char → Bool
  | [] => needle.isEmpty
  | b :: bs => startsWithChars needle (b :: bs) || containsChars needle bs

/-- Python substring test `needle in hay`. -/
def pyContains (needle hay : String) : Bool :=
  containsChars needle.toList hay.toList

/-- Python `s.lower()` (over the character list, so that it evaluates
inside the kernel). -/
def pyLower (s : String) : String := String.mk (s.toList.map Char.toLower)

/-- Python `s.upper()`. -/
def pyUpper (s : String) : String := String.mk (s.toList.map Char.toUpper)

/-- Worker for `splitOnStr`, fuelled by the haystack length. -/
def splitOnCharsGo (sep : List Char) : ℕ → List Char → List Char → List (List Char)
  | _, [], acc => [acc.reverse]
  | 0, l, acc => [acc.reverse ++ l]
  | fuel + 1, c :: cs, acc =>
    if startsWithChars sep (c :: cs) then
      acc.reverse :: splitOnCharsGo sep fuel (cs.drop (sep.length - 1)) []
    else splitOnCharsGo sep fuel cs (c :: acc)

/-- Python `s.split(sep)` for a non-empty separator (Python raises on an
empty one; the source only splits on `"ref: "` and `"|"`). -/
def splitOnStr (sep s : String) : List String :=
  if sep = "" then [s]
  else (splitOnCharsGo sep.toList s.toList.length s.toList []).map String.mk

/-- Worker for `pyReplace`, fuelled by the haystack length. -/
def replaceCharsGo (pat rep : List Char) : ℕ → List Char → List Char
  | _, [] => []
  | 0, l => l
  | fuel + 1, c :: cs =>
    if startsWithChars pat (c :: cs) then
      rep ++ replaceCharsGo pat rep fuel (cs.drop (pat.length - 1))
    else c :: replaceCharsGo pat rep fuel cs

/-- Python `s.replace(pat, rep)` for a non-empty pattern. -/
def pyReplace (s pat rep : String) : String :=
  if pat = "" then s
  else String.mk (replaceCharsGo pat.toList rep.toList s.toList.length s.toList)

/-- Drop the trailing characters satisfying `p`. -/
def dropEndWhile (p : Char → Bool) (l : List Char) : List Char :=
  (l.reverse.dropWhile p).reverse

/-- Strip characters satisfying `p` from both ends. -/
def stripChars (p : Char → Bool) (l : List Char) : List Char :=
  dropEndWhile p (l.dropWhile p)

/-- Python `s.strip()` (whitespace). -/
def pyStripWs (s : String) : String :=
  String.mk (stripChars Char.isWhitespace s.toList)

/-- Python `s.strip(" |")`. -/
def pyStripBar (s : String) : String :=
  String.mk (stripChars (fun c => c = ' ' || c = '|') s.toList)

/-- Whitespace tokenisation, accumulator form (Python `s.split()`:
maximal runs of non-whitespace characters). -/
def splitWsAux : List Char → List Char → List (List Char)
  | [], acc => if acc.isEmpty then [] else [acc.reverse]
  | c :: cs, acc =>
    if c.isWhitespace then
      if acc.isEmpty then splitWsAux cs [] else acc.reverse :: splitWsAux cs []
    else splitWsAux cs (c :: acc)

/-- Python `s.split()` as strings. -/
def pySplitWs (s : String) : List String :=
  (splitWsAux s.toList []).map String.mk

/-- The candidate-payee tokens used by the fuzzy matchers: whitespace
tokens of length `> 3`. -/
def tokensLong (s : String) : List String :=
  (pySplitWs s).filter (fun w => 3 < w.length)

/-! ### Python `float(...)` on strings -/

def allDigits (l : List Char) : Bool := l.all Char.isDigit

def digitsVal (l : List Char) : ℕ :=
  l.foldl (fun a c => a * 10 + (c.toNat - 48)) 0

/-- Exponent suffix of a float literal (empty, or `e`/`E` and a signed
integer). -/
def parseExpTail (m : ℚ) : List Char → Option ℚ
  | [] => some m
  | 'e' :: t => parseExpDigits m t
  | 'E' :: t => parseExpDigits m t
  | _ => none
where
  parseExpDigits (m : ℚ) (t : List Char) : Option ℚ :=
    let (neg, t') := match t with
      | '-' :: r => (true, r)
      | '+' :: r => (false, r)
      | r => (false, r)
    if t' ≠ [] ∧ allDigits t' then
      some (m * (10 : ℚ) ^ (if neg then -(digitsVal t' : ℤ) else (digitsVal t' : ℤ)))
    else none

/-- Python `float(s)` on a string: optional sign, decimal mantissa,
optional exponent (`inf`/`nan`/underscores not modelled — they never
appear in the numeric payloads). -/
def parsePyFloat (s : String) : Option ℚ :=
  let l := stripChars Char.isWhitespace s.toList
  let (sgn, l) : ℚ × List Char := match l with
    | '-' :: t => (-1, t)
    | '+' :: t => (1, t)
    | t => (1, t)
  let ip := l.takeWhile Char.isDigit
  let rest := l.dropWhile Char.isDigit
  match rest with
  | '.' :: t =>
    let fp := t.takeWhile Char.isDigit
    let rest2 := t.dropWhile Char.isDigit
    if ip = [] ∧ fp = [] then none
    else parseExpTail (sgn * (digitsVal ip + digitsVal fp / 10 ^ fp.length)) rest2
  | rest =>
    if ip = [] then none else parseExpTail (sgn * digitsVal ip) rest

/-- `float(x)` on a cell value, raising on `None` and unparsable
strings. -/
def pyFloatRaise : Cell → Except PyErr ℚ
  | .empty => .error (.typeError "float() argument was None")
  | .num q => .ok q
  | .str s => match parsePyFloat s with
    | some q => .ok q
    | none => .error (.valueError "could not convert string to float")

/-- `try: float(x or 0) except: 0.0` — the amount coercion used all over
the source. -/
def pyFloatOr0 (c : Cell) : ℚ :=
  if pyTruthy c then
    match c with
    | .num q => q
    | .str s => (parsePyFloat s).getD 0
    | .empty => 0
  else 0

/-! ### Date parsing (`_parse_date`) -/

def isLeapYear (y : ℕ) : Bool := (y % 4 = 0 && y % 100 ≠ 0) || y % 400 = 0

def daysInMonth (y m : ℕ) : ℕ :=
  if m = 2 then (if isLeapYear y then 29 else 28)
  else if m = 4 ∨ m = 6 ∨ m = 9 ∨ m = 11 then 30 else 31

/-- Julian day number of a (proleptic Gregorian) calendar date; only
differences of the results are used. -/
def rataDie (y m d : ℕ) : ℤ :=
  let a : ℤ := (14 - (m : ℤ)) / 12
  let y' : ℤ := (y : ℤ) + 4800 - a
  let m' : ℤ := (m : ℤ) + 12 * a - 3
  (d : ℤ) + (153 * m' + 2) / 5 + 365 * y' + y' / 4 - y' / 100 + y' / 400 - 32045

def fieldNat (l : List Char) : Option ℕ :=
  if l ≠ [] ∧ allDigits l then some (digitsVal l) else none

/-- Validated calendar date (as `datetime.strptime` validates ranges). -/
def mkDate (d m y : ℕ) : Option ℤ :=
  if 1 ≤ y ∧ 1 ≤ m ∧ m ≤ 12 ∧ 1 ≤ d ∧ d ≤ daysInMonth y m then
    some (rataDie y m d)
  else none

/-- Split into exactly three fields at a separator character. -/
def splitThree (sep : Char) (l : List Char) : Option (List Char × List Char × List Char) :=
  match l.splitOn sep with
  | [a, b, c] => some (a, b, c)
  | _ => none

/-- One `strptime` format with day/month/year field positions `fd fm fy`
(0, 1 or 2): day and month are 1–2 digits, year exactly 4 digits. -/
def parseDateFmt (sep : Char) (dayPos monPos : ℕ) (l : List Char) : Option ℤ := do
  let (a, b, c) ← splitThree sep l
  let fields := [a, b, c]
  let df := fields.getD dayPos []
  let mf := fields.getD monPos []
  let yf := fields.getD (3 - dayPos - monPos) []
  if df.length ≤ 2 ∧ mf.length ≤ 2 ∧ yf.length = 4 then
    let d ← fieldNat df
    let m ← fieldNat mf
    let y ← fieldNat yf
    mkDate d m y
  else none

/-- `_parse_date` on the string content: tries `%d.%m.%Y`, `%Y-%m-%d`,
`%d/%m/%Y`, `%m/%d/%Y` in that order. -/
def pyParseDateStr (s : String) : Option ℤ :=
  let l := stripChars Char.isWhitespace s.toList
  (parseDateFmt '.' 0 1 l).orElse fun _ =>
  (parseDateFmt '-' 2 1 l).orElse fun _ =>
  (parseDateFmt '/' 0 1 l).orElse fun _ =>
  (parseDateFmt '/' 1 0 l)

/-- `_parse_date(s)` from the source: `None` on falsy input, else parse
`str(s).strip()`. -/
def parse_date (c : Cell) : Option ℤ :=
  if pyTruthy c then pyParseDateStr (pyStrRaw c) else none

/-- Commission schedule `_get_comm(tp, ccy)` from the source: the `RUB`
test comes first, then the per-kind table with default `0.005`. -/
def get_comm (tp ccy : Cell) : ℚ :=
  if pyEq ccy (.str "RUB") then 4/1000
  else if pyEq tp (.str "Deposit") then 0
  else if pyEq tp (.str "Cash In") then 0
  else if pyEq tp (.str "Payment") then 5/1000
  else if pyEq tp (.str "Cash Out") then 5/1000
  else if pyEq tp (.str "❓ Unknown") then 5/1000
  else 5/1000

/-! ### Data model: worksheet rows, payload records, workbook -/

/-- A row of the Transactions sheet, columns A–N
(date, type, description, payee, ccy, amount, fx, gross USD, comm %,
net USD, balance, notes, payer, beneficiary). -/
structure TxRow where
  date : Cell
  kind : Cell
  desc : Cell
  payee : Cell
  ccy : Cell
  amount : Cell
  fx : Cell
  gross : Cell
  comm : Cell
  net : Cell
  bal : Cell
  notes : Cell
  payer : Cell
  benef : Cell
deriving DecidableEq, Repr

def emptyTxRow : TxRow :=
  ⟨.empty, .empty, .empty, .empty, .empty, .empty, .empty,
   .empty, .empty, .empty, .empty, .empty, .empty, .empty⟩

/-- A row of the Invoices sheet, columns A–K
(date, invoice no, payee, ccy, amount, usd, status, date paid,
payment reference, notes, beneficiary). -/
structure InvRow where
  date : Cell
  invNo : Cell
  payee : Cell
  ccy : Cell
  amount : Cell
  usd : Cell
  status : Cell
  datePaid : Cell
  ref : Cell
  notes : Cell
  benef : Cell
deriving DecidableEq, Repr

def emptyInvRow : InvRow :=
  ⟨.empty, .empty, .empty, .empty, .empty, .empty, .empty,
   .empty, .empty, .empty, .empty⟩

/-- The Settings sheet: the FX table (`A7:B25`) and the opening balance
cell (`C4`). -/
structure Settings where
  fxRows : List (Cell × Cell)
  opening : Cell
deriving DecidableEq, Repr

/-- The persisted workbook. -/
structure Workbook where
  txs : List TxRow
  invs : List InvRow
  settings : Settings
deriving DecidableEq, Repr

/-- A `new_transactions` payload record. -/
structure TxPayload where
  date : Cell
  type : Cell
  description : Cell
  payee : Cell
  ccy : Cell
  amount : Cell
  fx_rate : Cell
  comm : Cell
  notes : Cell
  payer : Cell
  beneficiary : Cell
deriving DecidableEq, Repr

/-- An `invoice_updates` payload record. -/
structure InvUpd where
  invoice_no : Cell
  new_status : Cell
  date_paid : Cell
  ref : Cell
  swift_amount : Cell
  swift_ccy : Cell
  swift_date : Cell
  swift_fx : Cell
  beneficiary : Cell
  payee : Cell
deriving DecidableEq, Repr

/-- A `new_invoices` payload record. -/
structure InvPayload where
  date : Cell
  invoice_no : Cell
  payee : Cell
  ccy : Cell
  amount : Cell
  status : Cell
  date_paid : Cell
  ref : Cell
  notes : Cell
  beneficiary : Cell
deriving DecidableEq, Repr

/-- A `transaction_updates` payload record. -/
structure TxUpd where
  match_description : Cell
  match_date : Cell
  new_notes : Cell
  confirmed : Cell
  fx_rate : Cell
deriving DecidableEq, Repr

/-- A change-request batch (`data` in `write_to_excel`). -/
structure ChangeData where
  new_transactions : List TxPayload
  invoice_updates : List InvUpd
  new_invoices : List InvPayload
  transaction_updates : List TxUpd
deriving DecidableEq, Repr

/-! ### Worksheet access primitives -/

/-- Read a row, `None`-filled when beyond the populated area (openpyxl
returns empty cells there). -/
def getPad {α : Type} (dflt : α) (l : List α) (i : ℕ) : α :=
  (l.get? i).getD dflt

/-- Write a row, materialising intermediate empty rows the way openpyxl
does when a cell below the current extent is assigned. -/
def setPad {α : Type} (dflt : α) (l : List α) (i : ℕ) (v : α) : List α :=
  if i < l.length then l.set i v
  else l ++ List.replicate (i - l.length) dflt ++ [v]

/-- `find_last_row`: last (1-based, data starts at row 5) row whose
column A or B holds a non-`None` value; `4` when there is none. -/
def find_last_row_over {α : Type} (colA colB : α → Cell) (rows : List α) : ℕ :=
  rows.enum.foldl
    (fun last p => if colA p.2 ≠ .empty ∨ colB p.2 ≠ .empty then p.1 + 5 else last) 4

def find_last_row (ts : List TxRow) : ℕ := find_last_row_over (·.date) (·.kind) ts

def find_last_row_inv (ws : List InvRow) : ℕ :=
  find_last_row_over (·.date) (·.invNo) ws

/-- `_prev_balance(ws, r)`: last numeric balance (column K) strictly
before row `r`, else `0`. -/
def prev_balance (ts : List TxRow) (r : ℕ) : ℚ :=
  (ts.take (r - 5)).foldl
    (fun last row => match row.bal with | .num q => q | _ => last) 0

/-- `_get_fx(ws_parent, ccy)`: scan the Settings FX table; a `float`
failure inside the `try` falls through to the `1.0` fallback. -/
def get_fx (st : Settings) (ccy : Cell) : ℚ := go st.fxRows
where
  go : List (Cell × Cell) → ℚ
  | [] => 1
  | (c0, c1) :: rest =>
    if pyEq (.str (pyStrRaw c0)) ccy ∧ pyTruthy c1 then
      match pyFloatRaise c1 with
      | .ok q => q
      | .error _ => 1
    else go rest

/-- `ws.cell(r, c, val if val is not None else "")`: `None` payload
values are written as empty strings. -/
def cellW (c : Cell) : Cell := match c with
  | .empty => .str ""
  | c => c

/-! ### `is_agent_company_str`, `apply_tx_row` -/

def agentCoTokens : List String :=
  ["balkemy", "troveco", "elitesphere", "rawrima", "masadan", "gornik",
   "nexus marine", "asteno"]

/-- `is_agent_company_str(val)`: falsy values are not agent companies;
otherwise fuzzy substring test against the token list. -/
def is_agent_company_str (val : Cell) : Bool :=
  if pyTruthy val then
    agentCoTokens.any (fun t => pyContains t (pyLower (pyStrRaw val)))
  else false

/-- `fx = float(tx.get("fx_rate")) if tx.get("fx_rate") else _get_fx(ws.parent, ccy)`. -/
def txFx (st : Settings) (tx : TxPayload) : Except PyErr ℚ :=
  if pyTruthy tx.fx_rate then pyFloatRaise tx.fx_rate
  else pure (get_fx st (pyGetD tx.ccy (.str "USD")))

/-- `comm = float(tx.get("comm")) if tx.get("comm") else _get_comm(tp, ccy)`. -/
def txComm (_st : Settings) (tx : TxPayload) : Except PyErr ℚ :=
  if pyTruthy tx.comm then pyFloatRaise tx.comm
  else pure (get_comm (pyGetD tx.type (.str "Payment")) (pyGetD tx.ccy (.str "USD")))

/-- The row contents written by `apply_tx_row` at row `r`, on top of the
previous contents `base` of that physical row (columns M and N are only
assigned when a payer/beneficiary is actually written; all other data
columns are always assigned). -/
def writtenTxRow (base : TxRow) (tx : TxPayload) (tp ccy : Cell)
    (amt fx comm gross net bal : ℚ) : TxRow :=
  { date := cellW (pyGetD tx.date (.str ""))
    kind := cellW tp
    desc := cellW (pyGetD tx.description (.str ""))
    payee := cellW (pyGetD tx.payee (.str ""))
    ccy := cellW ccy
    amount := .num amt
    fx := .num (round5 fx)
    gross := .num gross
    comm := .num comm
    net := .num (round2 net)
    bal := .num bal
    notes := cellW (pyGetD tx.notes (.str ""))
    payer := if pyTruthy tx.payer then tx.payer else base.payer
    benef :=
      if pyTruthy tx.beneficiary ∧ is_agent_company_str tx.beneficiary = false then
        tx.beneficiary
      else base.benef }

/-- The row contents computed by `apply_tx_row` once `fx` and `comm`
are known: the gross/net/balance derivation feeding `writtenTxRow`. -/
def txRowResult (ts : List TxRow) (r : ℕ) (tx : TxPayload) (fx comm : ℚ) :
    TxRow :=
  let tp := pyGetD tx.type (.str "Payment")
  let ccy := pyGetD tx.ccy (.str "USD")
  let amt := pyFloatOr0 tx.amount
  let gross := if fx ≠ 0 then round2 (amt / fx) else amt
  let net :=
    if pyEq tp (.str "Deposit") ∨ pyEq tp (.str "Cash In") then round2 gross
    else round2 (-(gross / max (1 - comm) (1/10000)))
  let bal := round2 (prev_balance ts r + net)
  writtenTxRow (getPad emptyTxRow ts (r - 5)) tx tp ccy amt fx comm gross net bal

/-- The pure tail of `apply_tx_row` once `fx` and `comm` are known. -/
def applyTxRowWith (ts : List TxRow) (r : ℕ) (tx : TxPayload) (fx comm : ℚ) :
    List TxRow :=
  setPad emptyTxRow ts (r - 5) (txRowResult ts r tx fx comm)

/-- `apply_tx_row(ws, r, tx)`: compute the derived columns and write the
full row at (1-based) sheet row `r`.  `float` on a malformed explicit
`fx_rate`/`comm` raises and propagates to the caller. -/
def apply_tx_row (st : Settings) (ts : List TxRow) (r : ℕ) (tx : TxPayload) :
    Except PyErr (List TxRow) := do
  let fx ← txFx st tx
  let comm ← txComm st tx
  pure (applyTxRowWith ts r tx fx comm)

/-! ### `_find_duplicate_tx` -/

/-- Extract the reference recorded in a (lowercased) notes cell:
the text after the first `"ref: "`, cut at `"|"`, stripped, first
whitespace token; `""` when absent (the `IndexError` of `[0]` on an
empty split is swallowed by the source's bare `except`). -/
def extractNotesRef (notesLo : String) : String :=
  if pyContains "ref: " notesLo then
    let after := (splitOnStr "ref: " notesLo).getD 1 ""
    let beforeBar := (splitOnStr "|" after).getD 0 ""
    match pySplitWs (pyStripWs beforeBar) with
    | [] => ""
    | w :: _ => w
  else ""

/-- Matching rules 1–4 of the duplicate detector on one ledger row:
kind `Payment`/`Deposit`, a candidate-payee token of length `> 3`
occurring in the row's payee or description, same currency with the
candidate amount positive and within 1 % relative tolerance, and dates
within 10 days when both parse. -/
def dupRulesMatch (payeeLo : String) (ccy : Cell) (amount : ℚ)
    (refDate : Option ℤ) (row : TxRow) : Bool :=
  let rType := pyStrO row.kind
  let rPayee := pyLower (pyStrO row.payee)
  let rDesc := pyLower (pyStrO row.desc)
  let payeeMatch := (tokensLong payeeLo).any
    (fun w => pyContains w rPayee || pyContains w rDesc)
  let rAmt := pyFloatOr0 row.amount
  let amtMatch := pyEq (.str (pyStrO row.ccy)) ccy && decide (0 < amount) &&
    decide (|rAmt - amount| / max amount 1 < 1/100)
  let dateMatch := match refDate with
    | none => true
    | some rd => match parse_date row.date with
      | none => true
      | some dr => decide (|dr - rd| ≤ 10)
  (rType = "Payment" || rType = "Deposit") && payeeMatch && amtMatch && dateMatch

/-- Rule 5 (ref disambiguation): with a non-empty candidate ref, a row
whose notes carry a different non-empty ref is skipped. -/
def dupRefExcluded (refLo : String) (row : TxRow) : Bool :=
  refLo ≠ "" &&
    (let exRef := extractNotesRef (pyLower (pyStrO row.notes))
     exRef ≠ "" && exRef ≠ refLo)

/-- Whether the scan returns this row. -/
def dupReturnsRow (payeeLo refLo : String) (ccy : Cell) (amount : ℚ)
    (refDate : Option ℤ) (row : TxRow) : Bool :=
  pyTruthy row.date && dupRulesMatch payeeLo ccy amount refDate row &&
    !dupRefExcluded refLo row

def findDupGo (payeeLo refLo : String) (ccy : Cell) (amount : ℚ)
    (refDate : Option ℤ) : ℕ → List TxRow → Option ℕ
  | _, [] => none
  | i, row :: rest =>
    if dupReturnsRow payeeLo refLo ccy amount refDate row then some i
    else findDupGo payeeLo refLo ccy amount refDate (i + 1) rest

/-- `_find_duplicate_tx(wst, payee, ccy, amount, date_str, ref)`:
first row (1-based sheet index) the matcher accepts, else `None`.
(`ref` values are strings per the payload schema; the string coercion
`pyStrO` stands in for `.lower()` on them.) -/
def find_duplicate_tx (ts : List TxRow) (payee : String) (ccy : Cell)
    (amount : ℚ) (dateC : Cell) (ref : Cell) : Option ℕ :=
  let refDate := parse_date dateC
  let payeeLo := pyStripWs (pyLower payee)
  let refLo := pyStripWs (pyLower (pyStrO ref))
  findDupGo payeeLo refLo ccy amount refDate 5 ts

/-! ### `_flag_duplicate` and `_recalc_balance_chain` -/

/-- The notes-cell update of `_flag_duplicate`: append the
possible-duplicate marker only when it is not already present. -/
def flagNotesVal (c : Cell) : Cell :=
  let cur := pyStrO c
  if pyContains "POSSIBLE DUPLICATE" cur then c
  else .str (pyStripBar (cur ++ " | ⚠ POSSIBLE DUPLICATE — проверить!"))

def flagNotesAt (ts : List TxRow) (r : ℕ) : List TxRow :=
  let row := getPad emptyTxRow ts (r - 5)
  setPad emptyTxRow ts (r - 5) { row with notes := flagNotesVal row.notes }

/-- `_flag_duplicate(wst, row_a, row_b)` (the defensive `None` check at
the call sites never fires — both rows always come from the scan). -/
def flag_duplicate (ts : List TxRow) (a b : ℕ) : List TxRow :=
  flagNotesAt (flagNotesAt ts a) b

/-- `float(net) if isinstance(net, (int, float)) else 0.0` — the net
coercion of the balance walk. -/
def netCoerce (c : Cell) : ℚ := match c with | .num q => q | _ => 0

/-- The downward walk of `_recalc_balance_chain`: stops at the first row
with a falsy date cell; non-numeric net values count as `0`. -/
def chainGo (prev : ℚ) : List TxRow → List TxRow
  | [] => []
  | row :: rest =>
    if pyTruthy row.date then
      let nb := round2 (prev + netCoerce row.net)
      { row with bal := .num nb } :: chainGo nb rest
    else row :: rest

/-- The anchor balance used by `_recalc_balance_chain`: last numeric
balance among the prior rows, and when that is `0`, the Settings
opening-balance cell if it holds a truthy number. -/
def chainAnchor (st : Settings) (pre : List TxRow) : ℚ :=
  let prev0 := pre.foldl
    (fun last row => match row.bal with | .num q => q | _ => last) 0
  if prev0 = 0 then
    match st.opening with
    | .num q => if q ≠ 0 then q else prev0
    | _ => prev0
  else prev0

/-- `_recalc_balance_chain(ws, from_row)`. -/
def recalc_balance_chain (st : Settings) (ts : List TxRow) (fromRow : ℕ) :
    List TxRow :=
  let pre := ts.take (fromRow - 5)
  pre ++ chainGo (chainAnchor st pre) (ts.drop (fromRow - 5))

/-! ### `apply_inv_update` -/

/-- The layered invoice-reference match of `apply_inv_update`:
substring either way on the invoice-number cell, else substring either
way on the stored payment-reference cell. -/
def invMatched (invNo : String) (row : InvRow) : Bool :=
  let cellInv := pyLower (pyStripWs (pyStrO row.invNo))
  let cellRef := pyLower (pyStripWs (pyStrO row.ref))
  pyContains invNo cellInv ||
    (cellInv ≠ "" && pyContains cellInv invNo) ||
    (cellRef ≠ "" && (pyContains invNo cellRef || pyContains cellRef invNo))

/-- First register row matching the invoice reference (0-based index). -/
def findMatchRow (invNo : String) : ℕ → List InvRow → Option (ℕ × InvRow)
  | _, [] => none
  | i, row :: rest =>
    if invMatched invNo row then some (i, row)
    else findMatchRow invNo (i + 1) rest

/-- The status-block writes shared by the primary and fallback paths:
`status` and `date_paid` are assigned unconditionally, the payment
reference only when the supplied `ref` is truthy. -/
def statusRefWrites (upd : InvUpd) (row : InvRow) : InvRow :=
  let status := pyGetD upd.new_status (.str "✅ Paid")
  let datePaid := pyGetD upd.date_paid (.str "")
  let refC := pyGetD upd.ref (.str "")
  let r1 := { row with status := status, datePaid := datePaid }
  if pyTruthy refC then { r1 with ref := refC } else r1

/-- The full primary-path row update: status block plus the beneficiary
column (written only when supplied and not an agent company). -/
def updatedInvRow (upd : InvUpd) (row : InvRow) : InvRow :=
  let r2 := statusRefWrites upd row
  if pyTruthy upd.beneficiary ∧ is_agent_company_str upd.beneficiary = false then
    { r2 with benef := upd.beneficiary }
  else r2

/-- Settlement resolution: SWIFT amount/ccy first (raising on a
malformed `swift_amount`), else the invoice's own amount/ccy, else no
transaction. -/
def settleTx (upd : InvUpd) (row : InvRow) :
    Except PyErr (Option (ℚ × Cell × Cell × String)) := do
  let datePaid := pyGetD upd.date_paid (.str "")
  let swiftDate := pyOr upd.swift_date datePaid
  let invCcy := pyStrO row.ccy
  let invAmt := pyFloatOr0 row.amount
  if pyTruthy upd.swift_amount ∧ pyTruthy upd.swift_ccy then
    let txAmt ← pyFloatRaise upd.swift_amount
    pure (some (txAmt, upd.swift_ccy, swiftDate, "SWIFT"))
  else if invAmt ≠ 0 then
    pure (some (invAmt, .str invCcy, datePaid, "инвойс"))
  else pure none

/-- The transaction payload auto-created from a paid invoice. -/
def autoTxPayload (upd : InvUpd) (row : InvRow) (txAmt : ℚ)
    (txCcy txDate : Cell) (src : String) : TxPayload :=
  let refC := pyGetD upd.ref (.str "")
  let payee := pyStrO row.payee
  let invNoDisplay := pyStrO row.invNo
  let finalBenef := pyOr upd.beneficiary row.benef
  { date := txDate
    type := .str "Payment"
    description := .str (invNoDisplay ++ " — " ++ payee)
    payee := .str payee
    ccy := txCcy
    amount := .num txAmt
    fx_rate := pyOr upd.swift_fx .empty
    comm := .empty
    notes := .str ("Автозапись из инвойса (" ++ src ++ ")" ++
      (if pyTruthy refC then " | ref: " ++ pyStrRaw refC else ""))
    payer := .empty
    beneficiary :=
      if pyTruthy finalBenef ∧ is_agent_company_str finalBenef = false then finalBenef
      else .empty }

/-- The duplicate-row notes update of the primary path: append
`" | ref: …"` only when the ref is truthy and not already present. -/
def addRefNotes (refC : Cell) (c : Cell) : Cell :=
  let cur := pyStrO c
  if pyTruthy refC ∧ pyContains (pyStrRaw refC) cur = false then
    .str (pyStripBar (cur ++ " | ref: " ++ pyStrRaw refC))
  else c

/-- The fallback-path row filter: row has data, is not already paid, has
a non-empty payee containing a long token of the payee hint, and (when a
SWIFT amount is given) both amounts parse and agree within 1 %
(a `float` failure skips the row via the inner `except: continue`). -/
def fbRowOk (payeeHint : String) (swiftAmt : Cell) (row : InvRow) : Bool :=
  (pyTruthy row.date || pyTruthy row.invNo) &&
  !(pyEq row.status (.str "✅ Paid")) &&
  (let cellPayee := pyLower (pyStripWs (pyStrO row.payee))
   cellPayee ≠ "" &&
   (tokensLong payeeHint).any (fun w => pyContains w cellPayee) &&
   (if pyTruthy swiftAmt then
      match pyFloatRaise swiftAmt, pyFloatRaise (pyOr row.amount (.num 0)) with
      | .ok swa, .ok cellAmt => decide (|swa - cellAmt| / max swa 1 ≤ 1/100)
      | _, _ => false
    else true))

def findFbRow (payeeHint : String) (swiftAmt : Cell) :
    ℕ → List InvRow → Option (ℕ × InvRow)
  | _, [] => none
  | i, row :: rest =>
    if fbRowOk payeeHint swiftAmt row then some (i, row)
    else findFbRow payeeHint swiftAmt (i + 1) rest

/-- The payee+amount fallback block of `apply_inv_update` (runs only
when the invoice number matched nothing). -/
def invFallback (st : Settings) (ws : List InvRow) (upd : InvUpd)
    (wst : Option (List TxRow)) (status : Cell) :
    Except PyErr (List InvRow × Option (List TxRow) × Bool × Bool × Option ℕ) := do
  let payeeHint := pyLower (pyStripWs (pyStrO upd.payee))
  if payeeHint ≠ "" ∧ pyEq status (.str "✅ Paid") then
    match findFbRow payeeHint upd.swift_amount 0 ws with
    | none => pure (ws, wst, false, false, none)
    | some (k, row) =>
      let ws' := ws.set k (statusRefWrites upd row)
      match wst with
      | none => pure (ws', none, true, false, none)
      | some ts =>
        match ← settleTx upd row with
        | none => pure (ws', some ts, true, false, none)
        | some (txAmt, txCcy, txDate, src) =>
          let refC := pyGetD upd.ref (.str "")
          match find_duplicate_tx ts (pyStrO row.payee) txCcy txAmt txDate refC with
          | some dupRow => pure (ws', some ts, true, false, some dupRow)
          | none =>
            let ts' ← apply_tx_row st ts (find_last_row ts + 1)
              (autoTxPayload upd row txAmt txCcy txDate src)
            pure (ws', some ts', true, true, none)
  else pure (ws, wst, false, false, none)

/-- The normalized `invoice_no` key: `str(upd.get("invoice_no","")).strip().lower()`. -/
def invNoOf (upd : InvUpd) : String :=
  pyLower (pyStripWs (pyStrRaw (pyGetD upd.invoice_no (.str ""))))

/-- The Paid-transition tail of `apply_inv_update` on the Transactions
sheet: settle, dedup-check, then create or annotate.
Returns `(transactions, tx_created, duplicate_row)`. -/
def paidBranch (st : Settings) (upd : InvUpd) (row : InvRow)
    (ts : List TxRow) :
    Except PyErr (List TxRow × Bool × Option ℕ) := do
  match ← settleTx upd row with
  | none => pure (ts, false, none)
  | some (txAmt, txCcy, txDate, src) =>
    let refC := pyGetD upd.ref (.str "")
    let payee := pyStrO row.payee
    match find_duplicate_tx ts payee txCcy txAmt txDate refC with
    | some dupRow =>
      let base := getPad emptyTxRow ts (dupRow - 5)
      let ts' := setPad emptyTxRow ts (dupRow - 5)
        { base with notes := addRefNotes refC base.notes }
      pure (ts', false, some dupRow)
    | none =>
      let newRow := find_last_row ts + 1
      let ts' ← apply_tx_row st ts newRow
        (autoTxPayload upd row txAmt txCcy txDate src)
      pure (ts', true, none)

/-- `apply_inv_update(ws, upd, wst)`: update the matched invoice row's
status block, and on a transition to Paid auto-create a linked Payment
transaction unless the duplicate detector finds one (in which case the
ref is appended to the duplicate's notes instead).
Returns `(invoices, transactions, found, tx_created, duplicate_row)`. -/
def apply_inv_update (st : Settings) (ws : List InvRow) (upd : InvUpd)
    (wst : Option (List TxRow)) :
    Except PyErr (List InvRow × Option (List TxRow) × Bool × Bool × Option ℕ) := do
  let invNo := invNoOf upd
  let status := pyGetD upd.new_status (.str "✅ Paid")
  match (if invNo ≠ "" then findMatchRow invNo 0 ws else none) with
  | some (k, row) =>
    let ws' := ws.set k (updatedInvRow upd row)
    if pyEq status (.str "✅ Paid") = false then pure (ws', wst, true, false, none)
    else
      match wst with
      | none => pure (ws', none, true, false, none)
      | some ts =>
        let r ← paidBranch st upd row ts
        pure (ws', some r.1, true, r.2.1, r.2.2)
  | none => invFallback st ws upd wst status

/-! ### `_compute_usd` and `add_new_invoice` -/

/-- `isinstance(x, (int, float))` on a cell value. -/
def cellIsNum : Cell → Bool
  | .num _ => true
  | _ => false

/-- `isinstance(x, (int, float)) and x > 0` on a cell value. -/
def cellNumPos : Cell → Bool
  | .num q => decide (0 < q)
  | _ => false

/-- The FX rate used by `_compute_usd`: first Settings row whose key
stringifies to `str(ccy)` and whose rate cell is numeric, else `1.0`. -/
def computeUsdFx (st : Settings) (ccy : Cell) : ℚ := go st.fxRows
where
  go : List (Cell × Cell) → ℚ
  | [] => 1
  | (c0, c1) :: rest =>
    if pyTruthy c0 && (pyStrRaw c0 = pyStrRaw ccy : Bool) && cellIsNum c1 then
      match c1 with | .num q => q | _ => 1
    else go rest

/-- `_compute_usd(wb, ccy, amount)`: `None` unless the amount is a
positive number, else the 2-decimal USD conversion. -/
def compute_usd (st : Settings) (ccy : Cell) (amount : Cell) : Option ℚ :=
  match amount with
  | .num q =>
    if q ≤ 0 then none
    else
      let fx := computeUsdFx st ccy
      some (if fx ≠ 0 then round2 (q / fx) else q)
  | _ => none

/-- The F-column VLOOKUP formula written for invoices whose amount is
neither a positive number nor TBC. -/
def invUsdFormula (r : ℕ) : String :=
  let e := "E" ++ toString r
  let d := "D" ++ toString r
  "=IF(OR(" ++ e ++ "=\"\"," ++ e ++ "=\"TBC\"),\"TBC\",IFERROR(" ++ e ++
    "/VLOOKUP(" ++ d ++ ",Settings!$A$7:$B$25,2,FALSE())," ++ e ++ "))"

/-- `add_new_invoice(ws, inv, last_row)`: write the new invoice at
`last_row + 1`; the USD column gets a computed number, `"TBC"`, or the
VLOOKUP formula. -/
def add_new_invoice (st : Settings) (ws : List InvRow) (inv : InvPayload)
    (lastRow : ℕ) : List InvRow :=
  let r := lastRow + 1
  let stc := pyGetD inv.status (.str "⏳ Pending")
  let ccy := pyGetD inv.ccy (.str "")
  let amt := inv.amount
  let base := getPad emptyInvRow ws (r - 5)
  let usdVal : Cell :=
    if cellNumPos amt && pyTruthy ccy then
      match compute_usd st ccy amt with
      | some u => if u ≠ 0 then .num u else .num 0
      | none => .num 0
    else if pyUpper (pyStrO amt) = "TBC" ∨ pyTruthy amt = false then .str "TBC"
    else .str (invUsdFormula r)
  let row : InvRow :=
    { date := cellW (pyGetD inv.date (.str ""))
      invNo := cellW (pyGetD inv.invoice_no (.str ""))
      payee := cellW (pyGetD inv.payee (.str ""))
      ccy := cellW ccy
      amount := cellW amt
      usd := usdVal
      status := cellW stc
      datePaid := cellW (pyGetD inv.date_paid (.str ""))
      ref := cellW (pyGetD inv.ref (.str ""))
      notes := cellW (pyGetD inv.notes (.str ""))
      benef := if pyTruthy inv.beneficiary then inv.beneficiary else base.benef }
  setPad emptyInvRow ws (r - 5) row

/-! ### `apply_transaction_update` -/

/-- `float(x or 0)` without the protective `try` (failures propagate). -/
def pyFloatRaiseOr0 (c : Cell) : Except PyErr ℚ := pyFloatRaise (pyOr c (.num 0))

/-- The FX-correction block of `apply_transaction_update`: recompute
gross/net from the confirmed rate and rescan the balance chain; any
`float` failure inside the `try` leaves the sheet and notes untouched. -/
def fxUpdateTry (st : Settings) (ts : List TxRow) (r : ℕ) (newFx : Cell)
    (notes : String) : List TxRow × String :=
  let row := getPad emptyTxRow ts (r - 5)
  match pyFloatRaise newFx, pyFloatRaiseOr0 row.amount, pyFloatRaiseOr0 row.comm with
  | .ok fx, .ok amt, .ok comm =>
    let tp := pyStrO row.kind
    let gross := if fx ≠ 0 then round2 (amt / fx) else amt
    let net :=
      if tp = "Deposit" ∨ tp = "Cash In" then round2 gross
      else round2 (-(gross / max (1 - comm) (1/10000)))
    let row' := { row with fx := .num (round5 fx), gross := .num gross,
                           net := .num (round2 net) }
    let ts' := recalc_balance_chain st (setPad emptyTxRow ts (r - 5) row') r
    let notes' := pyStripBar
      (pyReplace (pyReplace notes "⏳ ПРЕДВ. КУРС" "") "⏳ PRELIMINARY RATE" "")
    (ts', notes' ++ " | Курс подтверждён агентом: " ++ ratRepr fx)
  | _, _, _ => (ts, notes)

/-- Row scan of `apply_transaction_update`: first row with a keyword hit
(and, when a match date is given, that date as a substring) gets the FX
correction and the notes/confirmation rewrite. -/
def applyTxUpdGo (st : Settings) (tu : TxUpd) (today : String)
    (matchDesc matchDate : String) (ts : List TxRow) (r : ℕ) :
    ℕ → Except PyErr (List TxRow × Bool)
  | 0 => pure (ts, false)
  | fuel + 1 =>
    let row := getPad emptyTxRow ts (r - 5)
    let desc := pyLower (pyStrO row.desc)
    let date := pyStrO row.date
    let notes := pyStrO row.notes
    let keywords := tokensLong matchDesc
    let hits := (keywords.filter
      (fun kw => pyContains kw desc || pyContains kw (pyLower notes))).length
    if 1 ≤ hits ∧ ¬(matchDate ≠ "" ∧ pyContains matchDate date = false) then do
      let (ts1, notes1) :=
        if pyTruthy tu.fx_rate then fxUpdateTry st ts r tu.fx_rate notes
        else (ts, notes)
      let un0 := pyReplace (pyReplace (pyReplace notes1 "⚠ UNCONFIRMED — " "✅ CONFIRMED — ")
        "Agent did NOT confirm" "Agent CONFIRMED") "FOLLOW UP!" ""
      let un1 ←
        if pyTruthy tu.new_notes then
          match tu.new_notes with
          | .str s => pure s
          | _ => throw (PyErr.typeError "new_notes is not a string")
        else pure un0
      let un2 :=
        if pyTruthy tu.confirmed then
          if pyContains "CONFIRMED" (pyUpper un1) then un1
          else un1 ++ " | Подтверждено агентом " ++ today
        else un1
      let row1 := getPad emptyTxRow ts1 (r - 5)
      let row2 := { row1 with notes := .str (pyStripBar un2) }
      let descCur := pyStrO row1.desc
      let row3 :=
        if pyContains "⚠ UNCONFIRMED" descCur ∨ pyContains "UNCONFIRMED" descCur then
          { row2 with desc := .str (pyReplace (pyReplace descCur "⚠ UNCONFIRMED — " "✅ ")
              "UNCONFIRMED" "CONFIRMED") }
        else row2
      pure (setPad emptyTxRow ts1 (r - 5) row3, true)
    else applyTxUpdGo st tu today matchDesc matchDate ts (r + 1) fuel

/-- `apply_transaction_update(ws, upd)` (with the `datetime.now()` date
passed explicitly). -/
def apply_transaction_update (st : Settings) (ts : List TxRow) (tu : TxUpd)
    (today : String) : Except PyErr (List TxRow × Bool) :=
  let matchDesc := pyLower (pyStrRaw (pyGetD tu.match_description (.str "")))
  let matchDate := pyStripWs (pyStrRaw (pyGetD tu.match_date (.str "")))
  if matchDesc = "" then pure (ts, false)
  else applyTxUpdGo st tu today matchDesc matchDate ts 5 ts.length

/-! ### `_check_all_duplicates` and `write_to_excel` -/

/-- Python `f"{q:,.0f}"`: round to an integer (ties up here) and group
the digits with commas. -/
def fmtComma0 (q : ℚ) : String :=
  let n : ℤ := round q
  let digits := Nat.toDigits 10 n.natAbs
  (if n < 0 then "-" else "") ++
    String.mk (List.intercalate [','] (chunk3 digits.reverse)).reverse
where
  chunk3 : List Char → List (List Char)
  | [] => []
  | [a] => [[a]]
  | [a, b] => [[a, b]]
  | a :: b :: c :: rest => [a, b, c] :: chunk3 rest

/-- One candidate pair of the ledger-wide duplicate scan: `some reason`
when the pair is to be flagged. -/
def dupPairReason (a b : TxRow) : Option String :=
  if ¬((pyEq a.kind (.str "Payment") ∨ pyEq a.kind (.str "Deposit")) ∧
       (pyEq b.kind (.str "Payment") ∨ pyEq b.kind (.str "Deposit"))) then none
  else
    match pyFloatRaiseOr0 a.amount, pyFloatRaiseOr0 b.amount with
    | .ok amtA, .ok amtB =>
      if pyEq a.ccy b.ccy = false ∨ amtA = 0 then none
      else if 1/100 < |amtA - amtB| / max amtA 1 then none
      else
        match parse_date a.date, parse_date b.date with
        | some da, some db =>
          if 10 < |da - db| then none else dupPairPayees a b amtA
        | _, _ => dupPairPayees a b amtA
    | _, _ => none
where
  dupPairPayees (a b : TxRow) (amtA : ℚ) : Option String :=
    let pa := pyLower (pyStrRaw (pyOr a.payee (pyOr a.desc (.str ""))))
    let pb := pyLower (pyStrRaw (pyOr b.payee (pyOr b.desc (.str ""))))
    if (tokensLong pa).any (fun w => pyContains w pb) then
      some (pyStrRaw a.ccy ++ " " ++ fmtComma0 amtA ++ " | " ++ pyStrRaw a.payee ++
        " | " ++ pyStrRaw a.date ++ " vs " ++ pyStrRaw b.date)
    else none

/-- `_check_all_duplicates(wst)`: all flaggable pairs (row numbers are
1-based sheet rows). -/
def check_all_duplicates (ts : List TxRow) : List (ℕ × ℕ × String) :=
  pairsGo ((ts.enum.filter (fun p => pyTruthy p.2.date)).map
    (fun p => (p.1 + 5, p.2)))
where
  pairsGo : List (ℕ × TxRow) → List (ℕ × ℕ × String)
  | [] => []
  | (ra, a) :: rest =>
    (rest.filterMap (fun p => (dupPairReason a p.2).map (fun s => (ra, p.1, s))))
      ++ pairsGo rest

/-- The batch result of `write_to_excel`:
`(tx_a, inv_u, inv_a, tx_upd, auto_tx, dup_warnings)`. -/
structure WriteRes where
  tx_a : ℕ
  inv_u : ℕ
  inv_a : ℕ
  tx_upd : ℕ
  auto_tx : ℕ
  dup_warnings : List String
deriving DecidableEq, Repr

/-- The in-memory part of `write_to_excel`: every operation of the batch
applied to the loaded workbook, any uncaught exception propagating. -/
def writeBody (wb : Workbook) (data : ChangeData) (today : String) :
    Except PyErr (Workbook × WriteRes) := do
  let st := wb.settings
  let (wst, txUpd) ← data.transaction_updates.foldlM
    (fun (p : List TxRow × ℕ) tu => do
      let (ts, ok) ← apply_transaction_update st p.1 tu today
      pure (ts, if ok then p.2 + 1 else p.2))
    (wb.txs, 0)
  let (wst, txA) ← data.new_transactions.foldlM
    (fun (p : List TxRow × ℕ) tx => do
      let ts ← apply_tx_row st p.1 (find_last_row p.1 + 1) tx
      pure (ts, p.2 + 1))
    (wst, 0)
  let (wsi, wst, invU, autoTx, warns) ← data.invoice_updates.foldlM
    (fun (acc : List InvRow × List TxRow × ℕ × ℕ × List String) upd => do
      let (wsi, wst, invU, autoTx, warns) := acc
      let (wsi', wstO, found, created, dupRow) ← apply_inv_update st wsi upd (some wst)
      let wst' := wstO.getD wst
      if found then
        let warns' := match dupRow with
          | some d => warns ++ ["⚠ Транзакция для " ++
              pyStrRaw (pyGetD upd.invoice_no (.str "")) ++
              " уже существует (строка " ++ toString d ++ ") — не дублировал"]
          | none => warns
        pure (wsi', wst', invU + 1, if created then autoTx + 1 else autoTx, warns')
      else pure (wsi', wst', invU, autoTx, warns))
    (wb.invs, wst, 0, 0, ([] : List String))
  let (wsi, invA) := data.new_invoices.foldl
    (fun (p : List InvRow × ℕ) inv =>
      (add_new_invoice st p.1 inv (find_last_row_inv p.1), p.2 + 1))
    (wsi, 0)
  let dupPairs := check_all_duplicates wst
  let wst := dupPairs.foldl (fun ts p => flag_duplicate ts p.1 p.2.1) wst
  let warns := warns ++ dupPairs.map
    (fun p => "⚠ ДУБЛЬ: строки " ++ toString p.1 ++ " и " ++ toString p.2.1 ++
      " — " ++ p.2.2)
  let wst :=
    if 0 < txA ∨ 0 < autoTx then
      let firstNew := find_last_row wst - (txA + autoTx)
      if 5 ≤ firstNew then recalc_balance_chain st wst firstNew else wst
    else wst
  pure ({ wb with txs := wst, invs := wsi },
    ⟨txA, invU, invA, txUpd, autoTx, warns⟩)

/-- `write_to_excel(data)`: a missing workbook returns zero counters; an
existing one is loaded, the whole batch is run in memory, and the single
`wb.save` at the end is the only point where the disk state changes — an
exception anywhere in the batch leaves the disk untouched. -/
def write_to_excel (disk : Option Workbook) (data : ChangeData)
    (today : String) : Option Workbook × Except PyErr WriteRes :=
  match disk with
  | none => (none, .ok ⟨0, 0, 0, 0, 0, []⟩)
  | some wb =>
    match writeBody wb data today with
    | .error e => (some wb, .error e)
    | .ok (wb', res) => (some wb', .ok res)

/-! ### Spec-side definition for the duplicate-matching claim

Written from the specification's words (§4.3 matching rules 1–4), to be
compared against the embedded `_find_duplicate_tx`. -/

/-- Rules 1–4 as the spec states them: kind is Payment or Deposit; some
token of length > 3 from the candidate payee occurs case-insensitively
as a substring of the row's payee or description; currencies are equal
and `|amount_candidate − amount_row| / max(amount_candidate, 1) < 0.01`;
and when both dates parse they are within ±10 calendar days. -/
def specDupMatch (row : TxRow) (payee : String) (ccy : Cell) (amount : ℚ)
    (dateC : Cell) : Bool :=
  (pyStrO row.kind = "Payment" || pyStrO row.kind = "Deposit") &&
  (tokensLong (pyStripWs (pyLower payee))).any
    (fun w => pyContains w (pyLower (pyStrO row.payee)) ||
              pyContains w (pyLower (pyStrO row.desc))) &&
  (pyEq (.str (pyStrO row.ccy)) ccy &&
    decide (|pyFloatOr0 row.amount - amount| / max amount 1 < 1/100)) &&
  (match parse_date dateC, parse_date row.date with
   | some dc, some dr => decide (|dr - dc| ≤ 10)
   | _, _ => true)

/-! ## Lemmas -/

lemma round2_round2 (q : ℚ) : round2 (round2 q) = round2 q := by
  unfold round2
  rw [div_mul_cancel₀ _ (by norm_num : (100 : ℚ) ≠ 0), round_intCast]

lemma setPad_get?_self {α : Type} (d : α) (l : List α) (i : ℕ) (v : α) :
    (setPad d l i v).get? i = some v := by
  unfold setPad
  split
  · exact List.get?_set_eq_of_lt v ‹i < l.length›
  · rw [List.append_assoc, List.get?_append_right (by omega)]
    have h1 : (List.replicate (i - l.length) d ++ [v]).get? (i - l.length) = some v := by
      rw [List.get?_append_right (by simp), List.length_replicate]
      simp
    simpa using h1

lemma setPad_get?_lt {α : Type} (d : α) (l : List α) (i : ℕ) (v : α)
    (j : ℕ) (hj : j < l.length) (hne : j ≠ i) :
    (setPad d l i v).get? j = l.get? j := by
  unfold setPad
  split
  · exact List.get?_set_ne v l (Ne.symm hne)
  · rw [List.append_assoc, List.get?_append hj]

lemma setPad_at_length {α : Type} (d : α) (l : List α) (v : α) :
    setPad d l l.length v = l ++ [v] := by
  unfold setPad
  simp

lemma setPad_length_of_lt {α : Type} (d : α) (l : List α) (i : ℕ) (v : α)
    (h : i < l.length) : (setPad d l i v).length = l.length := by
  unfold setPad
  simp [h]

/-- Inversion of the `apply_tx_row` monadic shell. -/
lemma apply_tx_row_ok_iff (st : Settings) (ts : List TxRow) (r : ℕ)
    (tx : TxPayload) (ts' : List TxRow) :
    apply_tx_row st ts r tx = .ok ts' ↔
      ∃ fx comm, txFx st tx = .ok fx ∧ txComm st tx = .ok comm ∧
        ts' = applyTxRowWith ts r tx fx comm := by
  unfold apply_tx_row
  cases hfx : txFx st tx <;> cases hc : txComm st tx <;>
    simp [Bind.bind, Except.bind, Pure.pure, Except.pure, hfx, hc, eq_comm]

lemma applyTxRowWith_get?_self (ts : List TxRow) (r : ℕ) (tx : TxPayload)
    (fx comm : ℚ) :
    (applyTxRowWith ts r tx fx comm).get? (r - 5) =
      some (txRowResult ts r tx fx comm) :=
  setPad_get?_self _ _ _ _

lemma get_comm_eq (tp ccy : Cell) :
    get_comm tp ccy =
      if pyEq ccy (.str "RUB") then 4/1000
      else if pyEq tp (.str "Deposit") ∨ pyEq tp (.str "Cash In") then 0
      else 5/1000 := by
  unfold get_comm
  split_ifs <;> simp_all

lemma findDupGo_eq_none_iff (p r : String) (c : Cell) (a : ℚ) (d : Option ℤ) :
    ∀ (i : ℕ) (ts : List TxRow), findDupGo p r c a d i ts = none ↔
      ∀ row ∈ ts, dupReturnsRow p r c a d row = false := by
  intro i ts
  induction ts generalizing i with
  | nil => simp [findDupGo]
  | cons row rest ih =>
    by_cases h : dupReturnsRow p r c a d row = true
    · simp [findDupGo, h]
    · simp only [Bool.not_eq_true] at h
      simp [findDupGo, h, ih (i + 1)]

lemma findDupGo_isSome_iff (p r : String) (c : Cell) (a : ℚ) (d : Option ℤ) :
    ∀ (i : ℕ) (ts : List TxRow), (findDupGo p r c a d i ts).isSome = true ↔
      ∃ row ∈ ts, dupReturnsRow p r c a d row = true := by
  intro i ts
  induction ts generalizing i with
  | nil => simp [findDupGo]
  | cons row rest ih =>
    by_cases h : dupReturnsRow p r c a d row = true
    · simp [findDupGo, h]
    · simp only [Bool.not_eq_true] at h
      simp [findDupGo, h, ih (i + 1)]

lemma findDupGo_some (p r : String) (c : Cell) (a : ℚ) (d : Option ℤ) :
    ∀ (i k : ℕ) (ts : List TxRow), findDupGo p r c a d i ts = some k →
      i ≤ k ∧ ∃ row, ts.get? (k - i) = some row ∧
        dupReturnsRow p r c a d row = true := by
  intro i k ts
  induction ts generalizing i with
  | nil => simp [findDupGo]
  | cons row rest ih =>
    intro h
    by_cases hd : dupReturnsRow p r c a d row = true
    · simp only [findDupGo, hd, if_true, Option.some.injEq] at h
      subst h
      exact ⟨le_refl _, row, by simp, hd⟩
    · simp only [Bool.not_eq_true] at hd
      simp only [findDupGo, hd, Bool.false_eq_true, if_false] at h
      obtain ⟨hik, row', hget, hret⟩ := ih (i + 1) h
      refine ⟨by omega, row', ?_, hret⟩
      have : k - i = (k - (i + 1)) + 1 := by omega
      rw [this]
      simpa using hget

lemma findDupGo_append_all_false (p r : String) (c : Cell) (a : ℚ) (d : Option ℤ)
    (ts ts' : List TxRow)
    (hall : ∀ row ∈ ts, dupReturnsRow p r c a d row = false) :
    ∀ i, findDupGo p r c a d i (ts ++ ts') =
      findDupGo p r c a d (i + ts.length) ts' := by
  induction ts with
  | nil => intro i; simp
  | cons row rest ih =>
    intro i
    have h0 : dupReturnsRow p r c a d row = false := hall row (by simp)
    have hrest : ∀ row' ∈ rest, dupReturnsRow p r c a d row' = false :=
      fun row' hm => hall row' (by simp [hm])
    simp only [List.cons_append, findDupGo, h0, Bool.false_eq_true, if_false]
    rw [List.append_eq, ih hrest (i + 1)]
    congr 1
    simp
    omega

lemma dupRefExcluded_empty (row : TxRow) : dupRefExcluded "" row = false := by
  simp [dupRefExcluded]

/-- With no caller-supplied ref, the per-row decision of the scan is
exactly: non-empty date cell, positive candidate amount, and the spec's
matching rules 1–4. -/
lemma dupReturnsRow_no_ref (payee : String) (ccy : Cell) (amount : ℚ)
    (dateC : Cell) (row : TxRow) :
    dupReturnsRow (pyStripWs (pyLower payee)) "" ccy amount (parse_date dateC) row =
      (pyTruthy row.date && decide (0 < amount) &&
        specDupMatch row payee ccy amount dateC) := by
  unfold dupReturnsRow
  rw [dupRefExcluded_empty]
  simp only [Bool.not_false, Bool.and_true]
  unfold dupRulesMatch specDupMatch
  cases hc : parse_date dateC <;> cases hr : parse_date row.date <;>
    (rw [Bool.eq_iff_iff]
     simp only [Bool.and_eq_true, Bool.or_eq_true, decide_eq_true_eq]
     tauto)

/-- Concrete-ledger-row builder for witnesses and counterexamples
(remaining columns empty). -/
def mkTxRow (date kind desc payee ccy amount notes : Cell) : TxRow :=
  ⟨date, kind, desc, payee, ccy, amount, .empty, .empty, .empty, .empty,
   .empty, notes, .empty, .empty⟩

/-- Concrete-invoice-row builder for witnesses and counterexamples. -/
def mkInvRow (date invNo payee ccy amount status datePaid ref : Cell) : InvRow :=
  ⟨date, invNo, payee, ccy, amount, .empty, status, datePaid, ref, .empty, .empty⟩

/-! ## Claim C3 -/

/-- A concrete ledger row for the C3 counterexample: a Payment that
satisfies every stated matching rule against a zero-amount candidate. -/
def c3Row : TxRow :=
  mkTxRow (.str "01.03.2026") (.str "Payment") .empty (.str "Orient Insurance")
    (.str "USD") (.num 0) .empty

/-- C3 (counterexample): the claim's "exactly when" fails for a
zero-amount candidate — the ledger contains a row of kind Payment
satisfying stated rules (a)–(c) against the candidate, yet
`findDuplicate` returns none, because the code's amount test also
requires a strictly positive candidate amount. -/
theorem c3_counterexample :
    find_duplicate_tx [c3Row] "Orient Insurance" (.str "USD") 0
      (.str "01.03.2026") .empty = none ∧
    pyTruthy c3Row.date = true ∧
    specDupMatch c3Row "Orient Insurance" (.str "USD") 0 (.str "01.03.2026") = true := by
  refine ⟨by with_unfolding_all decide, by decide, by with_unfolding_all decide⟩

/-- C3 (amended): with no caller-supplied ref, `findDuplicate` returns a
row handle exactly when the ledger contains a row with a non-empty date
cell such that the candidate amount is strictly positive and matching
rules (a)–(c) hold — kind Payment/Deposit, a candidate-payee token of
length > 3 occurring case-insensitively in the row's payee or
description, equal currencies with 1 % relative amount tolerance, and
dates within ±10 days when both parse. -/
theorem c3_dup_match_characterization (ts : List TxRow) (payee : String)
    (ccy : Cell) (amt : ℚ) (dateC : Cell) :
    (find_duplicate_tx ts payee ccy amt dateC .empty).isSome = true ↔
      ∃ row ∈ ts, pyTruthy row.date = true ∧ 0 < amt ∧
        specDupMatch row payee ccy amt dateC = true := by
  unfold find_duplicate_tx
  have href : pyStripWs (pyLower (pyStrO Cell.empty)) = "" := by decide
  rw [href, findDupGo_isSome_iff]
  constructor
  · rintro ⟨row, hm, hret⟩
    rw [dupReturnsRow_no_ref] at hret
    simp only [Bool.and_eq_true, decide_eq_true_eq] at hret
    exact ⟨row, hm, hret.1.1, hret.1.2, hret.2⟩
  · rintro ⟨row, hm, h1, h2, h3⟩
    refine ⟨row, hm, ?_⟩
    rw [dupReturnsRow_no_ref]
    simp [h1, h2, h3]

/-- A concrete matching ledger row for the C3 witness. -/
def c3wRow : TxRow :=
  mkTxRow (.str "01.03.2026") (.str "Payment") .empty (.str "Orient Insurance")
    (.str "USD") (.num 1000) .empty

/-- Witness for C3 (amended): the characterization applied at a concrete
positive-amount instance. -/
theorem c3_dup_match_characterization_witness :
    (find_duplicate_tx [c3wRow] "Orient Insurance" (.str "USD") 1000
      (.str "05.03.2026") .empty).isSome = true :=
  (c3_dup_match_characterization [c3wRow] "Orient Insurance" (.str "USD") 1000
    (.str "05.03.2026")).mpr
    ⟨c3wRow, by simp, by decide, by norm_num, by with_unfolding_all decide⟩

/-! ## Claim C9 -/

/-- C9: a candidate transaction whose amount is ≤ 0 is never reported as
a duplicate, whatever the payee, currency, date or ref — the amount
tolerance test requires a strictly positive candidate amount. -/
theorem c9_zero_amount_never_matches (ts : List TxRow) (payee : String)
    (ccy : Cell) (amt : ℚ) (dateC ref : Cell) (h : amt ≤ 0) :
    find_duplicate_tx ts payee ccy amt dateC ref = none := by
  unfold find_duplicate_tx
  rw [findDupGo_eq_none_iff]
  intro row _
  unfold dupReturnsRow dupRulesMatch
  have hpos : decide (0 < amt) = false := by
    simp only [decide_eq_false_iff_not, not_lt]
    exact h
  simp [hpos]

/-- Witness for C9 at a concrete zero-amount candidate against a ledger
that would otherwise match. -/
theorem c9_zero_amount_never_matches_witness :
    find_duplicate_tx [c3Row] "Orient Insurance" (.str "USD") 0
      (.str "01.03.2026") (.str "R") = none :=
  c9_zero_amount_never_matches _ _ _ _ _ _ (by norm_num)

/-! ## Claim C4 -/

/-- C4: when the caller supplies a non-empty ref, any row whose notes
carry a different non-empty ref is rejected as a match — the handle
`findDuplicate` returns (if any) always names a row whose recorded ref
is either absent or equal to the supplied one. -/
theorem c4_ref_disambiguation (ts : List TxRow) (payee : String) (ccy : Cell)
    (amt : ℚ) (dateC ref : Cell) (i : ℕ)
    (href : pyStripWs (pyLower (pyStrO ref)) ≠ "")
    (h : find_duplicate_tx ts payee ccy amt dateC ref = some i) :
    ∃ row, ts.get? (i - 5) = some row ∧
      (extractNotesRef (pyLower (pyStrO row.notes)) = "" ∨
       extractNotesRef (pyLower (pyStrO row.notes)) =
         pyStripWs (pyLower (pyStrO ref))) := by
  unfold find_duplicate_tx at h
  obtain ⟨-, row, hget, hret⟩ := findDupGo_some _ _ _ _ _ 5 i ts h
  refine ⟨row, hget, ?_⟩
  unfold dupReturnsRow at hret
  simp only [Bool.and_eq_true] at hret
  have hexcl := hret.2
  unfold dupRefExcluded at hexcl
  simp only [Bool.not_eq_true', Bool.and_eq_false_iff, decide_eq_false_iff_not,
    not_not, ne_eq] at hexcl
  rcases hexcl with h1 | h2
  · exact absurd h1 (by simpa using href)
  · rcases h2 with h2 | h2
    · left; simpa using h2
    · right; simpa using h2

/-- A concrete ledger row for the C4 witness: same ref recorded in its
notes as the candidate supplies. -/
def c4wRow : TxRow :=
  mkTxRow (.str "01.03.2026") (.str "Payment") .empty (.str "Orient Insurance")
    (.str "USD") (.num 1000) (.str "Автозапись из инвойса (SWIFT) | ref: REF-A")

/-- Witness for C4: a ledger row recording the same ref is returned, and
the theorem yields that its recorded ref equals the candidate's. -/
theorem c4_ref_disambiguation_witness :
    ∃ row, [c4wRow].get? (5 - 5) = some row ∧
      (extractNotesRef (pyLower (pyStrO row.notes)) = "" ∨
       extractNotesRef (pyLower (pyStrO row.notes)) =
         pyStripWs (pyLower (pyStrO (.str "REF-A")))) :=
  c4_ref_disambiguation [c4wRow] "Orient Insurance" (.str "USD") 1000
    (.str "05.03.2026") (.str "REF-A") 5 (by decide)
    (by with_unfolding_all decide)

/-! ## Claim C7 -/

/-- C7 (counterexample): the claim says the commission rate is 0 %
whenever the kind is Deposit or Cash In, for every currency; the code
tests the RUB rate first, so a RUB deposit gets 0.4 %, not 0 %. -/
theorem c7_counterexample :
    get_comm (.str "Deposit") (.str "RUB") = 4/1000 ∧ (4/1000 : ℚ) ≠ 0 :=
  ⟨rfl, by norm_num⟩

/-- C7 (amended): for every transaction whose commission rate is not
supplied, the commission written to the ledger row is 0.4 % whenever the
currency is RUB (for every kind, including Deposit and Cash In);
otherwise 0 % for Deposit/Cash In and 0.5 % for all other kinds. -/
theorem c7_commission_schedule (st : Settings) (ts : List TxRow) (r : ℕ)
    (tx : TxPayload) (ts' : List TxRow)
    (hnc : pyTruthy tx.comm = false)
    (h : apply_tx_row st ts r tx = .ok ts') :
    ∃ row, ts'.get? (r - 5) = some row ∧
      row.comm = .num
        (if pyEq (pyGetD tx.ccy (.str "USD")) (.str "RUB") then 4/1000
         else if pyEq (pyGetD tx.type (.str "Payment")) (.str "Deposit") ∨
                 pyEq (pyGetD tx.type (.str "Payment")) (.str "Cash In") then 0
         else 5/1000) := by
  rw [apply_tx_row_ok_iff] at h
  obtain ⟨fx, comm, hfx, hcm, rfl⟩ := h
  unfold txComm at hcm
  rw [hnc] at hcm
  simp only [Bool.false_eq_true, if_false, Pure.pure, Except.pure,
    Except.ok.injEq] at hcm
  refine ⟨_, applyTxRowWith_get?_self _ _ _ _ _, ?_⟩
  simp only [txRowResult, writtenTxRow, ← hcm, get_comm_eq]

/-- Concrete RUB deposit payload for the C7 witness. -/
def c7wTx : TxPayload :=
  ⟨.str "01.03.2026", .str "Deposit", .str "funding", .str "Agent",
   .str "RUB", .num 9000, .empty, .empty, .empty, .empty, .empty⟩

/-- Concrete Settings sheet for the C7 witness (RUB at 90). -/
def c7wSt : Settings := ⟨[(.str "RUB", .num 90)], .empty⟩

/-- The ledger produced by the C7 witness transaction. -/
def c7wTs : List TxRow := applyTxRowWith [] 5 c7wTx 90 (4/1000)

/-- Witness for C7: a RUB deposit with no supplied commission gets the
0.4 % RUB rate written. -/
theorem c7_commission_schedule_witness :
    ∃ row, c7wTs.get? (5 - 5) = some row ∧
      row.comm = .num
        (if pyEq (pyGetD c7wTx.ccy (.str "USD")) (.str "RUB") then 4/1000
         else if pyEq (pyGetD c7wTx.type (.str "Payment")) (.str "Deposit") ∨
                 pyEq (pyGetD c7wTx.type (.str "Payment")) (.str "Cash In") then 0
         else 5/1000) :=
  c7_commission_schedule c7wSt [] 5 c7wTx c7wTs (by decide)
    ((apply_tx_row_ok_iff c7wSt [] 5 c7wTx c7wTs).mpr
      ⟨90, 4/1000, by with_unfolding_all decide, by with_unfolding_all decide,
        rfl⟩)

/-! ## Claim C2 -/

/-- C2: for every transaction row written by the engine with a non-zero
effective FX rate, `gross_usd = round(amount / fx_rate, 2)`, and
`net_usd = gross_usd` for Deposit/Cash In while otherwise
`net_usd = round(-(gross_usd / max(1 - commission_rate, 0.0001)), 2)`. -/
theorem c2_derived_columns (st : Settings) (ts : List TxRow) (r : ℕ)
    (tx : TxPayload) (ts' : List TxRow) (fx : ℚ)
    (hfx : txFx st tx = .ok fx) (hfx0 : fx ≠ 0)
    (h : apply_tx_row st ts r tx = .ok ts') :
    ∃ row comm, txComm st tx = .ok comm ∧ ts'.get? (r - 5) = some row ∧
      row.gross = .num (round2 (pyFloatOr0 tx.amount / fx)) ∧
      row.net = .num
        (if pyEq (pyGetD tx.type (.str "Payment")) (.str "Deposit") ∨
            pyEq (pyGetD tx.type (.str "Payment")) (.str "Cash In") then
          round2 (pyFloatOr0 tx.amount / fx)
        else
          round2 (-(round2 (pyFloatOr0 tx.amount / fx) /
            max (1 - comm) (1/10000)))) := by
  rw [apply_tx_row_ok_iff] at h
  obtain ⟨fx', comm, hfx', hcm, rfl⟩ := h
  rw [hfx] at hfx'
  injection hfx' with hfx'
  subst hfx'
  refine ⟨_, comm, hcm, applyTxRowWith_get?_self _ _ _ _ _, ?_, ?_⟩
  · simp [txRowResult, writtenTxRow, hfx0]
  · simp only [txRowResult, writtenTxRow, hfx0, ne_eq, not_false_eq_true, if_true]
    split <;> simp [round2_round2]

/-- Concrete AED payment payload for the C2 witness. -/
def c2wTx : TxPayload :=
  ⟨.str "01.03.2026", .str "Payment", .str "invoice", .str "Vendor",
   .str "AED", .num 367, .empty, .empty, .empty, .empty, .empty⟩

/-- Concrete Settings sheet for the C2 witness (AED at 3.67). -/
def c2wSt : Settings := ⟨[(.str "AED", .num (367/100))], .empty⟩

/-- The ledger produced by the C2 witness transaction. -/
def c2wTs : List TxRow := applyTxRowWith [] 5 c2wTx (367/100) (5/1000)

/-- Witness for C2 at a concrete AED payment (gross 100, net −100.50). -/
theorem c2_derived_columns_witness :
    ∃ row comm, txComm c2wSt c2wTx = .ok comm ∧
      c2wTs.get? (5 - 5) = some row ∧
      row.gross = .num (round2 (pyFloatOr0 c2wTx.amount / (367/100))) ∧
      row.net = .num
        (if pyEq (pyGetD c2wTx.type (.str "Payment")) (.str "Deposit") ∨
            pyEq (pyGetD c2wTx.type (.str "Payment")) (.str "Cash In") then
          round2 (pyFloatOr0 c2wTx.amount / (367/100))
        else
          round2 (-(round2 (pyFloatOr0 c2wTx.amount / (367/100)) /
            max (1 - comm) (1/10000)))) :=
  c2_derived_columns c2wSt [] 5 c2wTx c2wTs (367/100)
    (by with_unfolding_all decide) (by norm_num)
    ((apply_tx_row_ok_iff c2wSt [] 5 c2wTx c2wTs).mpr
      ⟨367/100, 5/1000, by with_unfolding_all decide,
        by with_unfolding_all decide, rfl⟩)

/-! ## Claim C1 -/

/-- The stored balance at list position `i`, when numeric. -/
def balNum? (ts : List TxRow) (i : ℕ) : Option ℚ :=
  (ts.get? i).bind (fun row => match row.bal with | .num q => some q | _ => none)

/-- The coerced net value at list position `i`. -/
def netCoerceAt (ts : List TxRow) (i : ℕ) : ℚ :=
  netCoerce ((ts.get? i).getD emptyTxRow).net

/-- The configured opening balance: the Settings cell when numeric,
else `0`. -/
def openingVal (st : Settings) : ℚ :=
  match st.opening with | .num q => q | _ => 0

/-- No prior row has a numeric balance. -/
def noNumericBal (pre : List TxRow) : Prop :=
  ∀ row ∈ pre, cellIsNum row.bal = false

/-- The reference balance sequence of the walk: value written at
position `k` when the walk starts from `prev`. -/
def chainVal (prev : ℚ) : List TxRow → ℕ → ℚ
  | [], _ => prev
  | row :: _, 0 => round2 (prev + netCoerce row.net)
  | row :: rest, k + 1 => chainVal (round2 (prev + netCoerce row.net)) rest k

lemma chainGo_bal (rows : List TxRow) :
    ∀ (prev : ℚ) (k : ℕ),
      (∀ j ≤ k, ∃ row, rows.get? j = some row ∧ pyTruthy row.date = true) →
      ((chainGo prev rows).get? k).map TxRow.bal =
        some (.num (chainVal prev rows k)) := by
  induction rows with
  | nil =>
    intro prev k hw
    obtain ⟨row, hget, -⟩ := hw 0 (Nat.zero_le k)
    simp at hget
  | cons row rest ih =>
    intro prev k hw
    obtain ⟨row0, hget0, htr0⟩ := hw 0 (Nat.zero_le k)
    simp only [List.get?_cons_zero, Option.some.injEq] at hget0
    subst hget0
    cases k with
    | zero => simp [chainGo, htr0, chainVal]
    | succ k =>
      simp only [chainGo, htr0, if_true]
      have := ih (round2 (prev + netCoerce row.net)) k
        (fun j hj => by
          obtain ⟨r, hr, ht⟩ := hw (j + 1) (Nat.succ_le_succ hj)
          exact ⟨r, by simpa using hr, ht⟩)
      simpa [chainVal] using this

lemma chainVal_succ (rows : List TxRow) :
    ∀ (prev : ℚ) (k : ℕ), k + 1 < rows.length →
      chainVal prev rows (k + 1) =
        round2 (chainVal prev rows k +
          netCoerce (((rows.get? (k + 1)).getD emptyTxRow).net)) := by
  induction rows with
  | nil => intro prev k h; simp at h
  | cons row rest ih =>
    intro prev k h
    cases k with
    | zero =>
      cases rest with
      | nil => simp at h
      | cons r rest' => simp [chainVal]
    | succ k =>
      have h' : k + 1 < rest.length := by simpa using h
      simpa [chainVal] using ih (round2 (prev + netCoerce row.net)) k h'

lemma chainGo_untouched (rows : List TxRow) :
    ∀ (prev : ℚ) (m j : ℕ), m ≤ j →
      (∀ row, rows.get? m = some row → pyTruthy row.date = false) →
      (chainGo prev rows).get? j = rows.get? j := by
  induction rows with
  | nil => intro prev m j _ _; simp [chainGo]
  | cons row rest ih =>
    intro prev m j hmj hm
    by_cases ht : pyTruthy row.date = true
    · cases m with
      | zero => exact absurd (hm row rfl) (by simp [ht])
      | succ m' =>
        cases j with
        | zero => omega
        | succ j' =>
          simp only [chainGo, ht, if_true, List.get?_cons_succ]
          exact ih _ m' j' (by omega) (fun r hr => hm r (by simpa using hr))
    · simp only [Bool.not_eq_true] at ht
      simp [chainGo, ht]

lemma foldl_bal_noNumeric (pre : List TxRow) (h : noNumericBal pre) :
    ∀ (a : ℚ), pre.foldl
      (fun last row => match row.bal with | .num q => q | _ => last) a = a := by
  induction pre with
  | nil => intro a; rfl
  | cons row rest ih =>
    intro a
    have h0 : cellIsNum row.bal = false := h row (by simp)
    have hrest : noNumericBal rest := fun r hr => h r (by simp [hr])
    cases hb : row.bal <;> simp [cellIsNum, hb] at h0 ⊢ <;>
      exact ih hrest a

lemma chainAnchor_of_noNumeric (st : Settings) (pre : List TxRow)
    (h : noNumericBal pre) : chainAnchor st pre = openingVal st := by
  unfold chainAnchor openingVal
  rw [foldl_bal_noNumeric pre h 0]
  cases ho : st.opening <;> simp
  exact fun h => h.symm

/-- C1: every row reached by the balance recompute satisfies
`running_balance[i] = round(running_balance[i-1] + net[i], 2)` (the
first recomputed row is chained to the anchor, which — when no prior
row has a numeric balance — is the configured opening balance from the
Settings store, defaulting to 0 when unset or non-numeric); and the walk
stops at the first structurally empty row, leaving it and everything
after it untouched. -/
theorem c1_balance_chain (st : Settings) (ts : List TxRow) (fromRow : ℕ)
    (i : ℕ) (hi : fromRow - 5 ≤ i)
    (hwalk : ∀ j, fromRow - 5 ≤ j → j ≤ i →
      ∃ row, ts.get? j = some row ∧ pyTruthy row.date = true) :
    (balNum? (recalc_balance_chain st ts fromRow) i =
      some (round2
        ((if i = fromRow - 5 then chainAnchor st (ts.take (fromRow - 5))
          else (balNum? (recalc_balance_chain st ts fromRow) (i - 1)).getD 0) +
         netCoerceAt ts i))) ∧
    (noNumericBal (ts.take (fromRow - 5)) →
      chainAnchor st (ts.take (fromRow - 5)) = openingVal st) ∧
    (∀ m j, fromRow - 5 ≤ m → m ≤ j →
      (∀ row, ts.get? m = some row → pyTruthy row.date = false) →
      (recalc_balance_chain st ts fromRow).get? j = ts.get? j) := by
  set s := fromRow - 5 with hs
  have hsome : ∃ row, ts.get? s = some row ∧ pyTruthy row.date = true :=
    hwalk s le_rfl hi
  have hslen : s < ts.length := by
    obtain ⟨row, hr, -⟩ := hsome
    exact (List.get?_eq_some.mp hr).1
  have hpre_len : (ts.take s).length = s := by
    simp [List.length_take]
    omega
  have hdrop : ∀ j, (ts.drop s).get? j = ts.get? (s + j) := by
    intro j
    exact List.get?_drop ts s j
  have happ : ∀ j, s ≤ j →
      (recalc_balance_chain st ts fromRow).get? j =
        (chainGo (chainAnchor st (ts.take s)) (ts.drop s)).get? (j - s) := by
    intro j hj
    unfold recalc_balance_chain
    rw [← hs, List.get?_append_right (by omega : (ts.take s).length ≤ j),
      hpre_len]
  have hw' : ∀ k, (s + k ≤ i) → ∀ j ≤ k,
      ∃ row, (ts.drop s).get? j = some row ∧ pyTruthy row.date = true := by
    intro k hk j hj
    obtain ⟨row, hr, ht⟩ := hwalk (s + j) (by omega) (by omega)
    exact ⟨row, by rw [hdrop]; exact hr, ht⟩
  refine ⟨?_, chainAnchor_of_noNumeric st _, ?_⟩
  · have hbal : balNum? (recalc_balance_chain st ts fromRow) i =
        some (chainVal (chainAnchor st (ts.take s)) (ts.drop s) (i - s)) := by
      unfold balNum?
      rw [happ i hi]
      have := chainGo_bal (ts.drop s) (chainAnchor st (ts.take s)) (i - s)
        (fun j hj => hw' (i - s) (by omega) j hj)
      cases hg : (chainGo (chainAnchor st (ts.take s)) (ts.drop s)).get? (i - s) with
      | none => rw [hg] at this; simp at this
      | some r =>
        rw [hg] at this
        simp only [Option.map_some', Option.some.injEq] at this
        simp [this]
    rw [hbal]
    by_cases hieq : i = s
    · subst hieq
      simp only [if_pos rfl]
      obtain ⟨row, hr, -⟩ := hsome
      have h0 : (ts.drop s).get? 0 = some row := by rw [hdrop]; simpa using hr
      have : ts.drop s = row :: (ts.drop (s + 1)) := by
        have := List.get?_eq_some.mp h0
        cases hd : ts.drop s with
        | nil => rw [hd] at h0; simp at h0
        | cons a l =>
          rw [hd] at h0
          simp only [List.get?_cons_zero, Option.some.injEq] at h0
          subst h0
          congr 1
          have : l = (ts.drop s).tail := by rw [hd]; rfl
          rw [this, List.tail_drop]
      rw [this]
      simp only [Nat.sub_self, chainVal]
      unfold netCoerceAt
      rw [hr]
      simp
    · have hilt : s < i := lt_of_le_of_ne hi (Ne.symm hieq)
      rw [if_neg hieq]
      have hbal' : balNum? (recalc_balance_chain st ts fromRow) (i - 1) =
          some (chainVal (chainAnchor st (ts.take s)) (ts.drop s) (i - 1 - s)) := by
        unfold balNum?
        rw [happ (i - 1) (by omega)]
        have := chainGo_bal (ts.drop s) (chainAnchor st (ts.take s)) (i - 1 - s)
          (fun j hj => hw' (i - 1 - s) (by omega) j hj)
        cases hg : (chainGo (chainAnchor st (ts.take s)) (ts.drop s)).get? (i - 1 - s) with
        | none => rw [hg] at this; simp at this
        | some r =>
          rw [hg] at this
          simp only [Option.map_some', Option.some.injEq] at this
          simp [this]
      rw [hbal']
      have hlen : i - s < (ts.drop s).length := by
        obtain ⟨row, hr, -⟩ := hwalk i (by omega) le_rfl
        have : (ts.drop s).get? (i - s) = some row := by
          rw [hdrop]
          have : s + (i - s) = i := by omega
          rw [this]
          exact hr
        exact (List.get?_eq_some.mp this).1
      have hsucc := chainVal_succ (ts.drop s) (chainAnchor st (ts.take s))
        (i - s - 1) (by omega)
      have hidx : i - s - 1 + 1 = i - s := by omega
      rw [hidx] at hsucc
      have hidx2 : i - 1 - s = i - s - 1 := by omega
      rw [hidx2, hsucc]
      simp only [Option.getD_some]
      congr 2
      unfold netCoerceAt
      rw [hdrop]
      have h2 : s + (i - s) = i := by omega
      rw [h2]
  · intro m j hm hmj hfalsy
    by_cases hjs : s ≤ j
    · rw [happ j hjs]
      rw [chainGo_untouched (ts.drop s) _ (m - s) (j - s) (by omega)
        (fun r hr => hfalsy r (by rw [hdrop] at hr; rwa [Nat.add_sub_cancel' hm] at hr))]
      rw [hdrop]
      congr 1
      omega
    · omega

/-- Concrete two-row ledger for the C1 witness. -/
def c1wTs : List TxRow :=
  [mkTxRow (.str "01.03.2026") (.str "Deposit") .empty (.str "A") (.str "USD")
     (.num 100) .empty,
   mkTxRow (.str "02.03.2026") (.str "Payment") .empty (.str "B") (.str "USD")
     (.num 50) .empty]

/-- The nets of the C1 witness rows, placed in column J. -/
def c1wTs' : List TxRow :=
  [{ (c1wTs.get? 0).getD emptyTxRow with net := .num 100 },
   { (c1wTs.get? 1).getD emptyTxRow with net := .num (-50) }]

/-- Settings with opening balance 1000 for the C1 witness. -/
def c1wSt : Settings := ⟨[], .num 1000⟩

/-- Witness for C1: recomputing from row 5 over a two-row ledger with no
prior numeric balances chains 1000 → 1100 → 1050. -/
theorem c1_balance_chain_witness :
    balNum? (recalc_balance_chain c1wSt c1wTs' 5) 1 =
      some (round2
        ((if 1 = 5 - 5 then chainAnchor c1wSt (c1wTs'.take (5 - 5))
          else (balNum? (recalc_balance_chain c1wSt c1wTs' 5) (1 - 1)).getD 0) +
         netCoerceAt c1wTs' 1)) :=
  (c1_balance_chain c1wSt c1wTs' 5 1 (by omega)
    (fun j _ hj => by
      interval_cases j
      · exact ⟨_, rfl, by decide⟩
      · exact ⟨_, rfl, by decide⟩)).1

/-! ## Claim C10 -/

lemma replicate_get? {α : Type} (d : α) (n k : ℕ) :
    (List.replicate n d).get? k = if k < n then some d else none := by
  induction n generalizing k with
  | zero => simp
  | succ n ih =>
    cases k with
    | zero => simp
    | succ k => simpa [List.replicate_succ, Nat.succ_lt_succ_iff] using ih k

/-- Full characterization of reads after a padded write. -/
lemma setPad_get? {α : Type} (d : α) (l : List α) (i : ℕ) (v : α) (j : ℕ) :
    (setPad d l i v).get? j =
      if j = i then some v
      else if j < l.length then l.get? j
      else if j < i then some d else none := by
  by_cases hji : j = i
  · subst hji
    rw [if_pos rfl]
    exact setPad_get?_self d l j v
  · rw [if_neg hji]
    unfold setPad
    split
    · next hlt =>
      rw [List.get?_set_ne v l (Ne.symm hji)]
      by_cases hjl : j < l.length
      · rw [if_pos hjl]
      · rw [if_neg hjl, List.get?_len_le (le_of_not_lt hjl),
          if_neg (by omega : ¬ j < i)]
    · next hge =>
      have hil : l.length ≤ i := le_of_not_lt hge
      by_cases hjl : j < l.length
      · rw [if_pos hjl, List.append_assoc, List.get?_append hjl]
      · rw [if_neg hjl]
        have hlj : l.length ≤ j := le_of_not_lt hjl
        rw [List.append_assoc, List.get?_append_right hlj]
        by_cases hji2 : j < i
        · rw [if_pos hji2,
            List.get?_append (by simp [List.length_replicate]; omega),
            replicate_get?, if_pos (by omega)]
        · rw [if_neg hji2,
            List.get?_append_right (by simp [List.length_replicate]; omega),
            List.get?_len_le (by simp [List.length_replicate]; omega)]

lemma setPad_length {α : Type} (d : α) (l : List α) (i : ℕ) (v : α) :
    (setPad d l i v).length = max l.length (i + 1) := by
  unfold setPad
  split <;> simp [List.length_set, List.length_replicate] <;> omega

lemma setPad_setPad_same {α : Type} (d : α) (l : List α) (i : ℕ) (v w : α) :
    setPad d (setPad d l i v) i w = setPad d l i w := by
  apply List.ext
  intro n
  simp only [setPad_get?, setPad_length]
  split_ifs <;> first | rfl | omega

lemma setPad_comm {α : Type} (d : α) (l : List α) (i j : ℕ) (v w : α)
    (hij : i ≠ j) :
    setPad d (setPad d l i v) j w = setPad d (setPad d l j w) i v := by
  apply List.ext
  intro n
  simp only [setPad_get?, setPad_length]
  split_ifs <;> first | rfl | omega

lemma getPad_setPad_self {α : Type} (d : α) (l : List α) (i : ℕ) (v : α) :
    getPad d (setPad d l i v) i = v := by
  unfold getPad
  rw [setPad_get?_self]
  rfl

lemma getPad_setPad_ne {α : Type} (d : α) (l : List α) (i j : ℕ) (v : α)
    (hij : i ≠ j) : getPad d (setPad d l j v) i = getPad d l i := by
  unfold getPad
  rw [setPad_get?, if_neg hij]
  by_cases h2 : i < l.length
  · rw [if_pos h2]
  · rw [if_neg h2, List.get?_len_le (le_of_not_lt h2)]
    split_ifs <;> rfl

lemma pyStrO_str (s : String) : pyStrO (.str s) = s := by
  unfold pyStrO pyTruthy pyStrRaw
  split <;> simp_all

lemma containsChars_append_left (m l₁ l₂ : List Char)
    (h : containsChars m l₂ = true) : containsChars m (l₁ ++ l₂) = true := by
  induction l₁ with
  | nil => simpa using h
  | cons c cs ih =>
    simp only [List.cons_append, containsChars, Bool.or_eq_true]
    exact Or.inr ih

lemma dropWhile_append_cases (p : Char → Bool) (l₁ l₂ : List Char) :
    (l₁ ++ l₂).dropWhile p = l₂.dropWhile p ∨
    (l₁.dropWhile p ≠ [] ∧ (l₁ ++ l₂).dropWhile p = l₁.dropWhile p ++ l₂) := by
  induction l₁ with
  | nil => exact Or.inl rfl
  | cons c cs ih =>
    by_cases hp : p c = true
    · simpa [List.dropWhile, hp] using ih
    · simp only [Bool.not_eq_true] at hp
      exact Or.inr (by simp [List.dropWhile, hp])

lemma dropEndWhile_concat (p : Char → Bool) (l : List Char) (c : Char)
    (hc : p c = false) : dropEndWhile p (l ++ [c]) = l ++ [c] := by
  unfold dropEndWhile
  rw [List.reverse_append]
  simp [List.dropWhile, hc]

/-- The possible-duplicate marker survives the append-and-strip of
`_flag_duplicate` whatever the current notes text is. -/
lemma marker_survives (cur : String) :
    pyContains "POSSIBLE DUPLICATE"
      (pyStripBar (cur ++ " | ⚠ POSSIBLE DUPLICATE — проверить!")) = true := by
  unfold pyContains pyStripBar stripChars
  have hdata : (cur ++ " | ⚠ POSSIBLE DUPLICATE — проверить!").toList =
      cur.toList ++ (" | ⚠ POSSIBLE DUPLICATE — проверить!" : String).toList := by
    simp [String.toList, String.data_append]
  rw [hdata]
  have happ : (" | ⚠ POSSIBLE DUPLICATE — проверить!" : String).toList =
      (" | ⚠ POSSIBLE DUPLICATE — проверить" : String).toList ++ ['!'] := by decide
  have hbang : (fun c => c = ' ' || c = '|') '!' = false := by decide
  rcases dropWhile_append_cases (fun c => c = ' ' || c = '|') cur.toList
      (" | ⚠ POSSIBLE DUPLICATE — проверить!" : String).toList with hcase | ⟨hne, hcase⟩
  · rw [hcase]
    decide
  · rw [hcase]
    obtain ⟨y, hy⟩ : ∃ y, cur.toList.dropWhile (fun c => c = ' ' || c = '|') = y :=
      ⟨_, rfl⟩
    rw [hy]
    rw [happ, ← List.append_assoc, dropEndWhile_concat _ _ _ hbang,
      List.append_assoc, ← happ]
    exact containsChars_append_left _ y _ (by decide)

/-- The marker is in the notes text after any flagging pass. -/
lemma flagNotesVal_contains (c : Cell) :
    pyContains "POSSIBLE DUPLICATE" (pyStrO (flagNotesVal c)) = true := by
  unfold flagNotesVal
  by_cases h : pyContains "POSSIBLE DUPLICATE" (pyStrO c) = true
  · rwa [if_pos h]
  · simp only [Bool.not_eq_true] at h
    rw [if_neg (by simp [h])]
    rw [pyStrO_str]
    exact marker_survives (pyStrO c)

lemma flagNotesVal_idem (c : Cell) :
    flagNotesVal (flagNotesVal c) = flagNotesVal c := by
  conv_lhs => rw [flagNotesVal]
  rw [if_pos (flagNotesVal_contains c)]

lemma flagRow_idem (row : TxRow) :
    ({ { row with notes := flagNotesVal row.notes } with
        notes := flagNotesVal ({ row with notes := flagNotesVal row.notes }).notes }) =
      ({ row with notes := flagNotesVal row.notes }) := by
  simp [flagNotesVal_idem]

lemma flagNotesAt_at_same (ts : List TxRow) (r : ℕ) :
    flagNotesAt (flagNotesAt ts r) r = flagNotesAt ts r := by
  unfold flagNotesAt
  rw [getPad_setPad_self, setPad_setPad_same]
  congr 1
  exact flagRow_idem _

lemma flagNotesAt_comm_ne (ts : List TxRow) (a b : ℕ) (h : a - 5 ≠ b - 5) :
    flagNotesAt (flagNotesAt ts a) b = flagNotesAt (flagNotesAt ts b) a := by
  unfold flagNotesAt
  rw [getPad_setPad_ne _ _ _ _ _ (Ne.symm h), getPad_setPad_ne _ _ _ _ _ h,
    setPad_comm _ _ _ _ _ _ h]

/-- C10: duplicate flagging is idempotent on the notes column — the
`POSSIBLE DUPLICATE` marker is appended only when the notes do not
already contain it, so re-flagging the same pair of rows leaves the
sheet unchanged. -/
theorem c10_flag_duplicate_idempotent (ts : List TxRow) (a b : ℕ) :
    flag_duplicate (flag_duplicate ts a b) a b = flag_duplicate ts a b := by
  unfold flag_duplicate
  by_cases hab : a - 5 = b - 5
  · have hsame : ∀ l, flagNotesAt l a = flagNotesAt l b := by
      intro l
      unfold flagNotesAt
      rw [hab]
    rw [hsame, flagNotesAt_at_same, flagNotesAt_at_same]
  · rw [flagNotesAt_comm_ne _ _ _ hab, flagNotesAt_at_same,
      ← flagNotesAt_comm_ne _ _ _ hab, flagNotesAt_at_same]

/-! ## Claim C8 -/

/-- Invoice row with an existing payment reference, for the C8
counterexample. -/
def c8Inv : InvRow :=
  mkInvRow (.str "01.02.2026") (.str "INV-9") (.str "Payee Co") (.str "USD")
    (.num 10) (.str "⏳ Pending") (.str "") (.str "OLD-REF")

/-- A status update supplying no ref, for the C8 counterexample. -/
def c8Upd : InvUpd :=
  ⟨.str "INV-9", .str "🔄 In Progress", .str "05.02.2026", .empty, .empty,
   .empty, .empty, .empty, .empty, .empty⟩

/-- The register produced by applying `c8Upd` to `[c8Inv]`. -/
def c8Res : Except PyErr
    (List InvRow × Option (List TxRow) × Bool × Bool × Option ℕ) :=
  apply_inv_update ⟨[], .empty⟩ [c8Inv] c8Upd none

/-- C8 (counterexample): the update matches the register row and
supplies `ref = ""`; the claim says the `payment_reference` cell is
written with the supplied value whatever it is, but the code leaves the
old reference in place — the cell still holds `"OLD-REF"`, not `""`. -/
theorem c8_counterexample :
    (c8Res.toOption.bind (fun r => r.1.get? 0)).map InvRow.ref =
      some (.str "OLD-REF") ∧
    pyGetD c8Upd.ref (.str "") = .str "" ∧
    (Cell.str "OLD-REF" ≠ Cell.str "") := by
  refine ⟨by with_unfolding_all decide, by decide, by decide⟩

/-- C8 (amended): on a matched invoice status update, the row's
`status` and `date_paid` cells are written unconditionally with the
supplied values for every new status, while `payment_reference` is
written only when the supplied ref is non-empty and is left unchanged
otherwise. -/
theorem c8_status_fields (st : Settings) (ws : List InvRow) (upd : InvUpd)
    (wst : Option (List TxRow)) (k : ℕ) (row : InvRow)
    (out : List InvRow × Option (List TxRow) × Bool × Bool × Option ℕ)
    (hinv : invNoOf upd ≠ "")
    (hm : findMatchRow (invNoOf upd) 0 ws = some (k, row))
    (h : apply_inv_update st ws upd wst = .ok out) :
    out.1 = ws.set k (updatedInvRow upd row) ∧
    (updatedInvRow upd row).status = pyGetD upd.new_status (.str "✅ Paid") ∧
    (updatedInvRow upd row).datePaid = pyGetD upd.date_paid (.str "") ∧
    (updatedInvRow upd row).ref =
      (if pyTruthy (pyGetD upd.ref (.str "")) then pyGetD upd.ref (.str "")
       else row.ref) := by
  have hfields :
      (updatedInvRow upd row).status = pyGetD upd.new_status (.str "✅ Paid") ∧
      (updatedInvRow upd row).datePaid = pyGetD upd.date_paid (.str "") ∧
      (updatedInvRow upd row).ref =
        (if pyTruthy (pyGetD upd.ref (.str "")) then pyGetD upd.ref (.str "")
         else row.ref) := by
    unfold updatedInvRow statusRefWrites
    split <;> split <;> simp_all
  refine ⟨?_, hfields⟩
  unfold apply_inv_update at h
  simp only [] at h
  rw [if_pos hinv, hm] at h
  simp only [] at h
  by_cases hst : pyEq (pyGetD upd.new_status (.str "✅ Paid")) (.str "✅ Paid") = false
  · rw [if_pos hst] at h
    simp only [Pure.pure, Except.pure, Except.ok.injEq] at h
    rw [← h]
  · rw [if_neg hst] at h
    cases wst with
    | none =>
      simp only [Pure.pure, Except.pure, Except.ok.injEq] at h
      rw [← h]
    | some ts =>
      simp only [] at h
      cases hp : paidBranch st upd row ts with
      | error e =>
        rw [hp] at h
        simp [Bind.bind, Except.bind] at h
      | ok r =>
        rw [hp] at h
        simp only [Bind.bind, Except.bind, Pure.pure, Except.pure,
          Except.ok.injEq] at h
        rw [← h]

/-- Register and update for the C8 witness (ref supplied this time). -/
def c8wInv : InvRow :=
  mkInvRow (.str "01.02.2026") (.str "INV-10") (.str "Payee Co") (.str "USD")
    (.num 10) (.str "⏳ Pending") (.str "") (.str "OLD-REF")

def c8wUpd : InvUpd :=
  ⟨.str "INV-10", .str "🔄 In Progress", .str "05.02.2026", .str "NEW-REF",
   .empty, .empty, .empty, .empty, .empty, .empty⟩

/-- Witness for C8 (amended) at a concrete matched update. -/
theorem c8_status_fields_witness :
    ([c8wInv].set 0 (updatedInvRow c8wUpd c8wInv),
      (none : Option (List TxRow)), true, false, (none : Option ℕ)).1 =
      [c8wInv].set 0 (updatedInvRow c8wUpd c8wInv) ∧
    (updatedInvRow c8wUpd c8wInv).status = pyGetD c8wUpd.new_status (.str "✅ Paid") ∧
    (updatedInvRow c8wUpd c8wInv).datePaid = pyGetD c8wUpd.date_paid (.str "") ∧
    (updatedInvRow c8wUpd c8wInv).ref =
      (if pyTruthy (pyGetD c8wUpd.ref (.str "")) then pyGetD c8wUpd.ref (.str "")
       else c8wInv.ref) :=
  c8_status_fields ⟨[], .empty⟩ [c8wInv] c8wUpd none 0 c8wInv _
    (by decide) (by with_unfolding_all rfl) (by with_unfolding_all rfl)

/-! ## Claim C6 -/

/-- C6: `write_to_excel` applies the whole batch to the in-memory
workbook and persists exactly once at the end — if any operation raises
partway, the on-disk workbook is exactly what it was before the call,
and on success the disk holds precisely the fully-processed in-memory
batch result. -/
theorem c6_batch_atomicity (disk : Option Workbook) (data : ChangeData)
    (today : String) :
    (∀ e, (write_to_excel disk data today).2 = .error e →
      (write_to_excel disk data today).1 = disk) ∧
    (∀ wb res, disk = some wb → (write_to_excel disk data today).2 = .ok res →
      ∃ wb', writeBody wb data today = .ok (wb', res) ∧
        (write_to_excel disk data today).1 = some wb') := by
  cases disk with
  | none =>
    refine ⟨fun e h => ?_, fun wb res hwb => ?_⟩
    · simp [write_to_excel] at h
    · exact absurd hwb (by simp)
  | some wb =>
    cases hb : writeBody wb data today with
    | error e' =>
      refine ⟨fun e _ => ?_, fun wb2 res hwb h => ?_⟩
      · simp [write_to_excel, hb]
      · simp [write_to_excel, hb] at h
    | ok p =>
      refine ⟨fun e h => ?_, fun wb2 res hwb h => ?_⟩
      · simp [write_to_excel, hb] at h
      · injection hwb with hwb
        subst hwb
        simp only [write_to_excel, hb] at h ⊢
        refine ⟨p.1, ?_, rfl⟩
        injection h with h2
        rw [← h2]

/-- A workbook and a batch whose second operation raises (malformed
explicit FX rate), for the C6 witness. -/
def c6wWb : Workbook := ⟨[], [], ⟨[(.str "USD", .num 1)], .empty⟩⟩

def c6wData : ChangeData :=
  ⟨[⟨.str "01.03.2026", .str "Payment", .str "d", .str "p", .str "USD",
     .num 10, .str "not-a-number", .empty, .empty, .empty, .empty⟩],
   [], [], []⟩

/-- Witness for C6: the failing batch leaves the disk untouched. -/
theorem c6_batch_atomicity_witness :
    (write_to_excel (some c6wWb) c6wData "01.03.2026").1 = some c6wWb :=
  (c6_batch_atomicity (some c6wWb) c6wData "01.03.2026").1
    (.valueError "could not convert string to float")
    (by with_unfolding_all decide)

/-! ## Claim C5 — helper lemmas -/

lemma cellW_of_ne_empty (c : Cell) (h : c ≠ .empty) : cellW c = c := by
  cases c <;> simp [cellW] at h ⊢

lemma startsWithChars_self_append (w x : List Char) :
    startsWithChars w (w ++ x) = true := by
  induction w with
  | nil => rfl
  | cons a as ih => simpa [startsWithChars] using ih

lemma containsChars_of_decomp (w : List Char) :
    ∀ (pre suf : List Char), containsChars w (pre ++ w ++ suf) = true := by
  intro pre
  induction pre with
  | nil =>
    intro suf
    cases w with
    | nil => cases suf <;> simp [containsChars, startsWithChars]
    | cons a as =>
      simp only [List.nil_append, List.cons_append, containsChars,
        Bool.or_eq_true]
      exact Or.inl (by simpa using startsWithChars_self_append (a :: as) suf)
  | cons p ps ih =>
    intro suf
    simp only [List.cons_append, containsChars, Bool.or_eq_true]
    exact Or.inr (by simpa using ih suf)

lemma splitWsAux_decomp :
    ∀ (l acc t : List Char), t ∈ splitWsAux l acc →
      ∃ pre suf, acc.reverse ++ l = pre ++ t ++ suf := by
  intro l
  induction l with
  | nil =>
    intro acc t ht
    unfold splitWsAux at ht
    split at ht
    · simp at ht
    · simp only [List.mem_singleton] at ht
      exact ⟨[], [], by simp [ht]⟩
  | cons c cs ih =>
    intro acc t ht
    unfold splitWsAux at ht
    by_cases hw : c.isWhitespace
    · rw [if_pos hw] at ht
      split at ht
      · obtain ⟨pre, suf, hps⟩ := ih [] t ht
        next hacc =>
        have : acc = [] := by simpa [List.isEmpty_iff] using hacc
        subst this
        exact ⟨c :: pre, suf, by simp at hps ⊢; rw [hps]⟩
      · simp only [List.mem_cons] at ht
        rcases ht with rfl | ht
        · exact ⟨[], c :: cs, by simp⟩
        · obtain ⟨pre, suf, hps⟩ := ih [] t ht
          simp only [List.reverse_nil, List.nil_append] at hps
          exact ⟨acc.reverse ++ c :: pre, suf, by rw [List.append_assoc]; simp [hps]⟩
    · rw [if_neg hw] at ht
      obtain ⟨pre, suf, hps⟩ := ih (c :: acc) t ht
      simp only [List.reverse_cons] at hps
      exact ⟨pre, suf, by rw [← hps]; simp⟩

lemma stripChars_decomp (p : Char → Bool) (l : List Char) :
    ∃ pre suf, l = pre ++ stripChars p l ++ suf := by
  unfold stripChars dropEndWhile
  refine ⟨l.takeWhile p, ((l.dropWhile p).reverse.takeWhile p).reverse, ?_⟩
  have h1 : l.takeWhile p ++ l.dropWhile p = l := by
    simp [List.takeWhile_append_dropWhile]
  have h2 : (l.dropWhile p).reverse.takeWhile p ++
      (l.dropWhile p).reverse.dropWhile p = (l.dropWhile p).reverse := by
    simp [List.takeWhile_append_dropWhile]
  rw [List.append_assoc]
  conv_lhs => rw [← h1]
  congr 1
  conv_lhs => rw [← List.reverse_reverse (l.dropWhile p), ← h2]
  rw [List.reverse_append]

/-- A long token of the stripped, lowered candidate string occurs inside
the unstripped string. -/
lemma token_pyContains (x w : String) (hw : w ∈ tokensLong (pyStripWs x)) :
    pyContains w x = true := by
  unfold tokensLong at hw
  have hw' : w ∈ pySplitWs (pyStripWs x) := (List.mem_filter.mp hw).1
  unfold pySplitWs at hw'
  obtain ⟨t, htmem, rfl⟩ := List.mem_map.mp hw'
  obtain ⟨pre, suf, hps⟩ := splitWsAux_decomp (pyStripWs x).toList [] t htmem
  simp only [List.reverse_nil, List.nil_append] at hps
  obtain ⟨pre2, suf2, hps2⟩ := stripChars_decomp Char.isWhitespace x.toList
  unfold pyContains
  have htl : (String.mk t).toList = t := rfl
  rw [htl]
  have hxl : (pyStripWs x).toList = stripChars Char.isWhitespace x.toList := rfl
  rw [hxl] at hps
  rw [hps2, hps]
  rw [show pre2 ++ (pre ++ t ++ suf) ++ suf2 = (pre2 ++ pre) ++ t ++ (suf ++ suf2) by
    simp [List.append_assoc]]
  exact containsChars_of_decomp t _ _

lemma parse_date_cellW_getD (c : Cell) :
    parse_date (cellW (pyGetD c (.str ""))) = parse_date c := by
  cases c <;> simp [parse_date, pyGetD, cellW, pyTruthy]

lemma updatedInvRow_ccy (upd : InvUpd) (row : InvRow) :
    (updatedInvRow upd row).ccy = row.ccy := by
  cases row
  simp only [updatedInvRow, statusRefWrites]
  split_ifs <;> rfl

lemma updatedInvRow_amount (upd : InvUpd) (row : InvRow) :
    (updatedInvRow upd row).amount = row.amount := by
  cases row
  simp only [updatedInvRow, statusRefWrites]
  split_ifs <;> rfl

lemma updatedInvRow_payee (upd : InvUpd) (row : InvRow) :
    (updatedInvRow upd row).payee = row.payee := by
  cases row
  simp only [updatedInvRow, statusRefWrites]
  split_ifs <;> rfl

lemma updatedInvRow_idem (upd : InvUpd) (row : InvRow) :
    updatedInvRow upd (updatedInvRow upd row) = updatedInvRow upd row := by
  cases row
  simp only [updatedInvRow, statusRefWrites]
  split_ifs <;> rfl

lemma settleTx_updated (upd : InvUpd) (row : InvRow) :
    settleTx upd (updatedInvRow upd row) = settleTx upd row := by
  unfold settleTx
  rw [updatedInvRow_ccy, updatedInvRow_amount]

lemma set_self_of_get? {α : Type} (l : List α) (k : ℕ) (v : α)
    (h : l.get? k = some v) : l.set k v = l := by
  apply List.ext
  intro n
  by_cases hn : n = k
  · subst hn
    rw [List.get?_set_eq_of_lt v (List.get?_eq_some.mp h).1, h]
  · rw [List.get?_set_ne v l (fun he => hn he.symm)]

lemma setPad_self_of_get? {α : Type} (d : α) (l : List α) (k : ℕ) (v : α)
    (h : l.get? k = some v) : setPad d l k v = l := by
  unfold setPad
  rw [if_pos (List.get?_eq_some.mp h).1]
  exact set_self_of_get? l k v h

lemma findMatchRow_some_inv (inv : String) :
    ∀ (i : ℕ) (l : List InvRow) (k : ℕ) (r : InvRow),
      findMatchRow inv i l = some (k, r) →
      i ≤ k ∧ l.get? (k - i) = some r ∧ invMatched inv r = true ∧
        ∀ j < k - i, ∀ r', l.get? j = some r' → invMatched inv r' = false := by
  intro i l
  induction l generalizing i with
  | nil => intro k r h; simp [findMatchRow] at h
  | cons row rest ih =>
    intro k r h
    by_cases hm : invMatched inv row = true
    · simp only [findMatchRow, hm, if_true, Option.some.injEq, Prod.mk.injEq] at h
      obtain ⟨rfl, rfl⟩ := h
      exact ⟨le_refl _, by simp, hm, fun j hj => absurd hj (by omega)⟩
    · simp only [Bool.not_eq_true] at hm
      simp only [findMatchRow, hm, Bool.false_eq_true, if_false] at h
      obtain ⟨hik, hget, hmr, hprev⟩ := ih (i + 1) k r h
      refine ⟨by omega, ?_, hmr, ?_⟩
      · have : k - i = (k - (i + 1)) + 1 := by omega
        rw [this]
        simpa using hget
      · intro j hj r' hr'
        cases j with
        | zero =>
          simp only [List.get?_cons_zero, Option.some.injEq] at hr'
          subst hr'; exact hm
        | succ j' =>
          exact hprev j' (by omega) r' (by simpa using hr')

lemma findMatchRow_of (inv : String) :
    ∀ (i : ℕ) (l : List InvRow) (k : ℕ) (r : InvRow),
      l.get? k = some r → invMatched inv r = true →
      (∀ j < k, ∀ r', l.get? j = some r' → invMatched inv r' = false) →
      findMatchRow inv i l = some (i + k, r) := by
  intro i l
  induction l generalizing i with
  | nil => intro k r h; simp at h
  | cons row rest ih =>
    intro k r hget hmr hprev
    cases k with
    | zero =>
      simp only [List.get?_cons_zero, Option.some.injEq] at hget
      subst hget
      simp [findMatchRow, hmr]
    | succ k' =>
      have h0 : invMatched inv row = false :=
        hprev 0 (by omega) row (by simp)
      simp only [findMatchRow, h0, Bool.false_eq_true, if_false]
      have := ih (i + 1) k' r (by simpa using hget) hmr
        (fun j hj r' hr' => hprev (j + 1) (by omega) r' (by simpa using hr'))
      rw [this]
      simp only [Option.some.injEq, Prod.mk.injEq]
      exact ⟨by omega, trivial⟩

lemma findMatchRow_updated (upd : InvUpd) (ws : List InvRow) (k : ℕ)
    (row : InvRow)
    (hm : findMatchRow (invNoOf upd) 0 ws = some (k, row))
    (hm' : invMatched (invNoOf upd) (updatedInvRow upd row) = true) :
    findMatchRow (invNoOf upd) 0 (ws.set k (updatedInvRow upd row)) =
      some (k, updatedInvRow upd row) := by
  obtain ⟨-, hget, -, hprev⟩ := findMatchRow_some_inv (invNoOf upd) 0 ws k row hm
  simp only [Nat.sub_zero] at hget hprev
  have hk : k < ws.length := (List.get?_eq_some.mp hget).1
  have := findMatchRow_of (invNoOf upd) 0 (ws.set k (updatedInvRow upd row)) k
    (updatedInvRow upd row)
    (List.get?_set_eq_of_lt _ hk)
    hm'
    (fun j hj r' hr' => by
      rw [List.get?_set_ne _ _ (by omega : k ≠ j)] at hr'
      exact hprev j hj r' hr')
  simpa using this

/-- The decision the duplicate probe takes on the transaction row that
`apply_inv_update` itself just created: the probe accepts it. -/
lemma auto_row_dup_decision (ts : List TxRow) (upd : InvUpd) (row : InvRow)
    (txAmt : ℚ) (cs : String) (txDate : Cell) (src : String) (fx comm : ℚ)
    (r : ℕ)
    (hamt : 0 < txAmt)
    (htok : tokensLong (pyStripWs (pyLower (pyStrO row.payee))) ≠ [])
    (htd : pyTruthy (cellW (pyGetD txDate (.str ""))) = true)
    (href : pyTruthy (pyGetD upd.ref (.str "")) = false ∨
      extractNotesRef (pyLower (pyStrO
          (autoTxPayload upd row txAmt (.str cs) txDate src).notes)) =
        pyStripWs (pyLower (pyStrO (pyGetD upd.ref (.str ""))))) :
    dupReturnsRow (pyStripWs (pyLower (pyStrO row.payee)))
      (pyStripWs (pyLower (pyStrO (pyGetD upd.ref (.str "")))))
      (.str cs) txAmt (parse_date txDate)
      (txRowResult ts r (autoTxPayload upd row txAmt (.str cs) txDate src)
        fx comm) = true := by
  have hdate : (txRowResult ts r (autoTxPayload upd row txAmt (.str cs) txDate
      src) fx comm).date = cellW (pyGetD txDate (.str "")) := by
    simp only [txRowResult, writtenTxRow, autoTxPayload]
  have hkind : (txRowResult ts r (autoTxPayload upd row txAmt (.str cs) txDate
      src) fx comm).kind = .str "Payment" := by
    simp only [txRowResult, writtenTxRow, autoTxPayload, pyGetD, cellW]
  have hpayee : (txRowResult ts r (autoTxPayload upd row txAmt (.str cs) txDate
      src) fx comm).payee = .str (pyStrO row.payee) := by
    simp only [txRowResult, writtenTxRow, autoTxPayload, pyGetD, cellW]
  have hccy : (txRowResult ts r (autoTxPayload upd row txAmt (.str cs) txDate
      src) fx comm).ccy = .str cs := by
    simp only [txRowResult, writtenTxRow, autoTxPayload, pyGetD, cellW]
  have hamount : (txRowResult ts r (autoTxPayload upd row txAmt (.str cs)
      txDate src) fx comm).amount = .num txAmt := by
    simp [txRowResult, writtenTxRow, autoTxPayload, pyFloatOr0, pyTruthy,
      hamt.ne']
  have hnotes : (txRowResult ts r (autoTxPayload upd row txAmt (.str cs) txDate
      src) fx comm).notes =
      (autoTxPayload upd row txAmt (.str cs) txDate src).notes := by
    simp only [txRowResult, writtenTxRow, autoTxPayload, pyGetD, cellW]
  unfold dupReturnsRow
  rw [hdate, htd]
  have hrules : dupRulesMatch (pyStripWs (pyLower (pyStrO row.payee)))
      (.str cs) txAmt (parse_date txDate)
      (txRowResult ts r (autoTxPayload upd row txAmt (.str cs) txDate src)
        fx comm) = true := by
    unfold dupRulesMatch
    simp only [hkind, hpayee, hccy, hamount]
    obtain ⟨w, hw⟩ := List.exists_mem_of_ne_nil _ htok
    have hcont : pyContains w (pyLower (pyStrO row.payee)) = true :=
      token_pyContains (pyLower (pyStrO row.payee)) w hw
    rw [pyStrO_str, pyStrO_str]
    simp only [Bool.and_eq_true, Bool.or_eq_true]
    refine ⟨⟨⟨Or.inl (by simp), ?_⟩, ?_⟩, ?_⟩
    · exact List.any_eq_true.mpr ⟨w, hw, by simp [hcont]⟩
    · refine ⟨⟨?_, by simpa using hamt⟩, ?_⟩
      · simp [pyEq, pyStrO_str]
      · have hfl : pyFloatOr0 (Cell.num txAmt) = txAmt := by
          simp [pyFloatOr0, pyTruthy, hamt.ne']
        rw [hfl]
        simp only [sub_self, abs_zero, zero_div]
        norm_num
    · cases hpd : parse_date txDate with
      | none => simp
      | some rd =>
        rw [hdate, parse_date_cellW_getD, hpd]
        simp
  rw [hrules]
  have hexcl : dupRefExcluded
      (pyStripWs (pyLower (pyStrO (pyGetD upd.ref (.str "")))))
      (txRowResult ts r (autoTxPayload upd row txAmt (.str cs) txDate src)
        fx comm) = false := by
    rcases href with hfalse | heq
    · have hz : pyStrO (pyGetD upd.ref (.str "")) = "" := by
        unfold pyStrO
        rw [hfalse]
        simp
      rw [hz, (by decide : pyStripWs (pyLower "") = "")]
      exact dupRefExcluded_empty _
    · unfold dupRefExcluded
      rw [hnotes, heq]
      simp
  rw [hexcl]
  rfl

lemma txrow_notes_self (r : TxRow) : { r with notes := r.notes } = r := rfl

/-! ## Claim C5 -/

/-- Settings sheet for the C5 counterexample. -/
def c5cSt : Settings := ⟨[(.str "USD", .num 1)], .empty⟩

/-- An invoice whose payee has no token longer than three characters. -/
def c5cInv : InvRow :=
  mkInvRow (.str "20.02.2026") (.str "INV-88") (.str "AB CD") (.str "USD")
    (.num 500) (.str "⏳ Pending") (.str "") .empty

/-- A Paid update carrying a payment reference. -/
def c5cUpd : InvUpd :=
  ⟨.str "INV-88", .str "✅ Paid", .str "01.03.2026", .str "R1", .empty, .empty,
   .empty, .empty, .empty, .empty⟩

/-- The first application of the Paid update. -/
def c5cFirst : Except PyErr
    (List InvRow × Option (List TxRow) × Bool × Bool × Option ℕ) :=
  apply_inv_update c5cSt [c5cInv] c5cUpd (some [])

/-- The same update replayed on the outputs of the first application. -/
def c5cSecond : Except PyErr
    (List InvRow × Option (List TxRow) × Bool × Bool × Option ℕ) :=
  c5cFirst.bind (fun r => apply_inv_update c5cSt r.1 c5cUpd r.2.1)

/-- C5 (counterexample): marking the same invoice paid twice is *not*
always idempotent.  When the payee has no token longer than three
characters the duplicate probe cannot match the auto-created
transaction, so the replayed update reports `transactionCreated = true`
again and appends a second linked transaction row. -/
theorem c5_counterexample :
    c5cFirst.toOption.map (fun r => (r.2.2.2.1, (r.2.1.getD []).length)) =
      some (true, 1) ∧
    c5cSecond.toOption.map (fun r => (r.2.2.2.1, (r.2.1.getD []).length)) =
      some (true, 2) := by
  constructor
  · with_unfolding_all decide
  · with_unfolding_all decide

/-- C5 (amended): marking a matched invoice paid creates exactly one
linked transaction, and replaying the very same update is idempotent on
both sheets *provided that* the invoice payee carries a token longer
than three characters, the written transaction date cell is truthy, the
supplied ref (when present) is recoverable verbatim from the created
row's notes, and the updated register row still matches the invoice
number.  The first call reports `transactionCreated = true` and appends
one row; the replay reports `transactionCreated = false`, returns the
created row as the duplicate, and leaves both sheets unchanged. -/
theorem c5_paid_marking_idempotent
    (st : Settings) (ws : List InvRow) (ts : List TxRow) (upd : InvUpd)
    (k : ℕ) (row : InvRow) (txAmt : ℚ) (cs : String) (txDate : Cell)
    (src : String) (fx comm : ℚ)
    (hst : pyGetD upd.new_status (.str "✅ Paid") = .str "✅ Paid")
    (hinv : invNoOf upd ≠ "")
    (hm : findMatchRow (invNoOf upd) 0 ws = some (k, row))
    (hm' : invMatched (invNoOf upd) (updatedInvRow upd row) = true)
    (hsettle : settleTx upd row = .ok (some (txAmt, .str cs, txDate, src)))
    (hamt : 0 < txAmt)
    (htok : tokensLong (pyStripWs (pyLower (pyStrO row.payee))) ≠ [])
    (hdup : find_duplicate_tx ts (pyStrO row.payee) (.str cs) txAmt txDate
      (pyGetD upd.ref (.str "")) = none)
    (hlast : find_last_row ts = 4 + ts.length)
    (htd : pyTruthy (cellW (pyGetD txDate (.str ""))) = true)
    (href : pyTruthy (pyGetD upd.ref (.str "")) = false ∨
      (extractNotesRef (pyLower (pyStrO
          (autoTxPayload upd row txAmt (.str cs) txDate src).notes)) =
        pyStripWs (pyLower (pyStrO (pyGetD upd.ref (.str "")))) ∧
       pyContains (pyStrRaw (pyGetD upd.ref (.str "")))
         (pyStrO (autoTxPayload upd row txAmt (.str cs) txDate src).notes) =
         true))
    (hfx : txFx st (autoTxPayload upd row txAmt (.str cs) txDate src) = .ok fx)
    (hcm : txComm st (autoTxPayload upd row txAmt (.str cs) txDate src) =
      .ok comm) :
    apply_inv_update st ws upd (some ts) =
      .ok (ws.set k (updatedInvRow upd row),
        some (ts ++ [txRowResult ts (find_last_row ts + 1)
          (autoTxPayload upd row txAmt (.str cs) txDate src) fx comm]),
        true, true, none) ∧
    apply_inv_update st (ws.set k (updatedInvRow upd row)) upd
      (some (ts ++ [txRowResult ts (find_last_row ts + 1)
        (autoTxPayload upd row txAmt (.str cs) txDate src) fx comm])) =
      .ok (ws.set k (updatedInvRow upd row),
        some (ts ++ [txRowResult ts (find_last_row ts + 1)
          (autoTxPayload upd row txAmt (.str cs) txDate src) fx comm]),
        true, false, some (5 + ts.length)) := by
  have hcond : ¬ (pyEq (pyGetD upd.new_status (.str "✅ Paid"))
      (.str "✅ Paid") = false) := by
    rw [hst]
    decide
  have happly : apply_tx_row st ts (find_last_row ts + 1)
      (autoTxPayload upd row txAmt (.str cs) txDate src) =
      .ok (ts ++ [txRowResult ts (find_last_row ts + 1)
        (autoTxPayload upd row txAmt (.str cs) txDate src) fx comm]) := by
    rw [apply_tx_row_ok_iff]
    refine ⟨fx, comm, hfx, hcm, ?_⟩
    unfold applyTxRowWith
    rw [hlast]
    have hidx : 4 + ts.length + 1 - 5 = ts.length := by omega
    rw [hidx, setPad_at_length]
  have hpb1 : paidBranch st upd row ts =
      .ok (ts ++ [txRowResult ts (find_last_row ts + 1)
        (autoTxPayload upd row txAmt (.str cs) txDate src) fx comm],
        true, none) := by
    unfold paidBranch
    rw [hsettle]
    simp only [Bind.bind, Except.bind]
    rw [hdup]
    simp only []
    rw [happly]
    simp only [Bind.bind, Except.bind, Pure.pure, Except.pure]
  have hfirst : apply_inv_update st ws upd (some ts) =
      .ok (ws.set k (updatedInvRow upd row),
        some (ts ++ [txRowResult ts (find_last_row ts + 1)
          (autoTxPayload upd row txAmt (.str cs) txDate src) fx comm]),
        true, true, none) := by
    unfold apply_inv_update
    simp only []
    rw [if_pos hinv, hm]
    simp only []
    rw [if_neg hcond]
    rw [hpb1]
    simp only [Bind.bind, Except.bind, Pure.pure, Except.pure]
  refine ⟨hfirst, ?_⟩
  have hm2 := findMatchRow_updated upd ws k row hm hm'
  have hsettle2 : settleTx upd (updatedInvRow upd row) =
      .ok (some (txAmt, .str cs, txDate, src)) := by
    rw [settleTx_updated]
    exact hsettle
  have hall : ∀ rrow ∈ ts,
      dupReturnsRow (pyStripWs (pyLower (pyStrO row.payee)))
        (pyStripWs (pyLower (pyStrO (pyGetD upd.ref (.str "")))))
        (.str cs) txAmt (parse_date txDate) rrow = false := by
    have hd := hdup
    unfold find_duplicate_tx at hd
    simp only [] at hd
    exact (findDupGo_eq_none_iff _ _ _ _ _ 5 ts).mp hd
  have hvdec := auto_row_dup_decision ts upd row txAmt cs txDate src fx comm
    (find_last_row ts + 1) hamt htok htd (href.imp id And.left)
  have hdup2 : find_duplicate_tx
      (ts ++ [txRowResult ts (find_last_row ts + 1)
        (autoTxPayload upd row txAmt (.str cs) txDate src) fx comm])
      (pyStrO (updatedInvRow upd row).payee) (.str cs) txAmt txDate
      (pyGetD upd.ref (.str "")) = some (5 + ts.length) := by
    rw [updatedInvRow_payee]
    unfold find_duplicate_tx
    simp only []
    rw [findDupGo_append_all_false _ _ _ _ _ ts _ hall 5]
    simp only [findDupGo, hvdec, if_true, List.length_nil]
  have hnotes2 : (txRowResult ts (find_last_row ts + 1)
      (autoTxPayload upd row txAmt (.str cs) txDate src) fx comm).notes =
      (autoTxPayload upd row txAmt (.str cs) txDate src).notes := by
    simp only [txRowResult, writtenTxRow, autoTxPayload, pyGetD, cellW]
  have hadd : addRefNotes (pyGetD upd.ref (.str ""))
      (txRowResult ts (find_last_row ts + 1)
        (autoTxPayload upd row txAmt (.str cs) txDate src) fx comm).notes =
      (txRowResult ts (find_last_row ts + 1)
        (autoTxPayload upd row txAmt (.str cs) txDate src) fx comm).notes := by
    unfold addRefNotes
    rcases href with hfalse | ⟨-, hcontain⟩
    · rw [if_neg]
      intro hc
      rw [hfalse] at hc
      exact absurd hc.1 (by simp)
    · rw [if_neg]
      intro hc
      rw [hnotes2, hcontain] at hc
      exact absurd hc.2 (by simp)
  have hget2 : getPad emptyTxRow
      (ts ++ [txRowResult ts (find_last_row ts + 1)
        (autoTxPayload upd row txAmt (.str cs) txDate src) fx comm])
      (5 + ts.length - 5) =
      txRowResult ts (find_last_row ts + 1)
        (autoTxPayload upd row txAmt (.str cs) txDate src) fx comm := by
    have hidx : 5 + ts.length - 5 = ts.length := by omega
    rw [hidx]
    unfold getPad
    rw [List.get?_append_right le_rfl]
    simp
  have hset2 : setPad emptyTxRow
      (ts ++ [txRowResult ts (find_last_row ts + 1)
        (autoTxPayload upd row txAmt (.str cs) txDate src) fx comm])
      (5 + ts.length - 5)
      (txRowResult ts (find_last_row ts + 1)
        (autoTxPayload upd row txAmt (.str cs) txDate src) fx comm) =
      ts ++ [txRowResult ts (find_last_row ts + 1)
        (autoTxPayload upd row txAmt (.str cs) txDate src) fx comm] := by
    have hidx : 5 + ts.length - 5 = ts.length := by omega
    rw [hidx]
    apply setPad_self_of_get?
    rw [List.get?_append_right le_rfl]
    simp
  have hpb2 : paidBranch st upd (updatedInvRow upd row)
      (ts ++ [txRowResult ts (find_last_row ts + 1)
        (autoTxPayload upd row txAmt (.str cs) txDate src) fx comm]) =
      .ok (ts ++ [txRowResult ts (find_last_row ts + 1)
        (autoTxPayload upd row txAmt (.str cs) txDate src) fx comm],
        false, some (5 + ts.length)) := by
    unfold paidBranch
    rw [hsettle2]
    simp only [Bind.bind, Except.bind]
    rw [hdup2]
    simp only []
    rw [hget2, hadd, txrow_notes_self, hset2]
    rfl
  have hsecond : apply_inv_update st (ws.set k (updatedInvRow upd row)) upd
      (some (ts ++ [txRowResult ts (find_last_row ts + 1)
        (autoTxPayload upd row txAmt (.str cs) txDate src) fx comm])) =
      .ok ((ws.set k (updatedInvRow upd row)).set k
          (updatedInvRow upd (updatedInvRow upd row)),
        some (ts ++ [txRowResult ts (find_last_row ts + 1)
          (autoTxPayload upd row txAmt (.str cs) txDate src) fx comm]),
        true, false, some (5 + ts.length)) := by
    unfold apply_inv_update
    simp only []
    rw [if_pos hinv, hm2]
    simp only []
    rw [if_neg hcond]
    rw [hpb2]
    simp only [Bind.bind, Except.bind, Pure.pure, Except.pure]
  rw [hsecond, updatedInvRow_idem, List.set_set]

/-- Settings sheet for the C5 witness. -/
def c5wSt : Settings := ⟨[(.str "USD", .num 1)], .empty⟩

/-- Invoice whose payee has long tokens, for the C5 witness. -/
def c5wRow : InvRow :=
  mkInvRow (.str "20.02.2026") (.str "INV-7") (.str "Orient Insurance")
    (.str "USD") (.num 1000) (.str "⏳ Pending") (.str "") .empty

/-- A Paid update with a clean single-token ref, for the C5 witness. -/
def c5wUpd : InvUpd :=
  ⟨.str "INV-7", .str "✅ Paid", .str "01.03.2026", .str "REFA", .empty,
   .empty, .empty, .empty, .empty, .empty⟩

/-- Witness for C5 (amended) at a concrete invoice: the first call
creates the linked transaction, the replay is idempotent. -/
theorem c5_paid_marking_idempotent_witness :
    apply_inv_update c5wSt [c5wRow] c5wUpd (some []) =
      .ok ([c5wRow].set 0 (updatedInvRow c5wUpd c5wRow),
        some (([] : List TxRow) ++ [txRowResult [] (find_last_row [] + 1)
          (autoTxPayload c5wUpd c5wRow 1000 (.str "USD") (.str "01.03.2026")
            "инвойс") 1 (5/1000)]),
        true, true, none) ∧
    apply_inv_update c5wSt ([c5wRow].set 0 (updatedInvRow c5wUpd c5wRow))
      c5wUpd
      (some (([] : List TxRow) ++ [txRowResult [] (find_last_row [] + 1)
        (autoTxPayload c5wUpd c5wRow 1000 (.str "USD") (.str "01.03.2026")
          "инвойс") 1 (5/1000)])) =
      .ok ([c5wRow].set 0 (updatedInvRow c5wUpd c5wRow),
        some (([] : List TxRow) ++ [txRowResult [] (find_last_row [] + 1)
          (autoTxPayload c5wUpd c5wRow 1000 (.str "USD") (.str "01.03.2026")
            "инвойс") 1 (5/1000)]),
        true, false, some (5 + ([] : List TxRow).length)) :=
  c5_paid_marking_idempotent c5wSt [c5wRow] [] c5wUpd 0 c5wRow 1000 "USD"
    (.str "01.03.2026") "инвойс" 1 (5/1000)
    rfl (by decide) (by with_unfolding_all rfl)
    (by with_unfolding_all decide) (by with_unfolding_all rfl)
    (by with_unfolding_all decide) (by with_unfolding_all decide)
    rfl rfl (by decide)
    (Or.inr ⟨by with_unfolding_all decide, by with_unfolding_all decide⟩)
    (by with_unfolding_all rfl) (by with_unfolding_all rfl)

end PaymentBot
